import Mathlib

/-!
Verification of the cascaded quadcopter flight controller in
`Simulation/ctrl.py` (class `Control`).  The controller is numeric code over
IEEE floats; we embed it over the real numbers, transcribing each stage of the
cascade directly from the source.  The helper module `utils` (quaternion
multiply / inverse, vector normalisation, rotation-matrix conversion, DCM) is
not part of the sources; those definitions are modelled from the spec and are
marked as such in their doc comments.
-/

noncomputable section

open Real

/-! ## Vectors -/

/-- A 3-vector of reals (a `numpy` length-3 array in the source). -/
@[ext]
structure Vec3 where
  x : ℝ
  y : ℝ
  z : ℝ

namespace Vec3

def zero : Vec3 := ⟨0, 0, 0⟩

def add (a b : Vec3) : Vec3 := ⟨a.x + b.x, a.y + b.y, a.z + b.z⟩

def sub (a b : Vec3) : Vec3 := ⟨a.x - b.x, a.y - b.y, a.z - b.z⟩

def smul (c : ℝ) (a : Vec3) : Vec3 := ⟨c * a.x, c * a.y, c * a.z⟩

/-- Componentwise (Hadamard) product, as in `numpy` elementwise `*`. -/
def hmul (a b : Vec3) : Vec3 := ⟨a.x * b.x, a.y * b.y, a.z * b.z⟩

def dot (a b : Vec3) : ℝ := a.x * b.x + a.y * b.y + a.z * b.z

def cross (a b : Vec3) : Vec3 :=
  ⟨a.y * b.z - a.z * b.y, a.z * b.x - a.x * b.z, a.x * b.y - a.y * b.x⟩

/-- Euclidean norm, `numpy.linalg.norm`. -/
def norm (a : Vec3) : ℝ := Real.sqrt (dot a a)

end Vec3

/-- A 2-vector of reals (an xy-slice of a `numpy` array in the source). -/
@[ext]
structure Vec2 where
  x : ℝ
  y : ℝ

namespace Vec2

def zero : Vec2 := ⟨0, 0⟩

def add (a b : Vec2) : Vec2 := ⟨a.x + b.x, a.y + b.y⟩

def sub (a b : Vec2) : Vec2 := ⟨a.x - b.x, a.y - b.y⟩

def smul (c : ℝ) (a : Vec2) : Vec2 := ⟨c * a.x, c * a.y⟩

def hmul (a b : Vec2) : Vec2 := ⟨a.x * b.x, a.y * b.y⟩

def dot (a b : Vec2) : ℝ := a.x * b.x + a.y * b.y

/-- Euclidean norm of the xy-slice, `numpy.linalg.norm`. -/
def norm (a : Vec2) : ℝ := Real.sqrt (dot a a)

end Vec2

/-- A 3x3 matrix stored as its three columns (the source assembles `R_sp`
from the body axes as columns, and reads `dcm[:,2]`). -/
@[ext]
structure Mat3 where
  c1 : Vec3
  c2 : Vec3
  c3 : Vec3

/-! ## Scalar numpy primitives -/

/-- Modelled from the source's use of `numpy.sign`: the sign of a real, with
`sign 0 = 0`. -/
def np_sign (x : ℝ) : ℝ := if 0 < x then 1 else if x < 0 then -1 else 0

/-- Modelled from the source's use of `numpy.clip` on scalars. -/
def np_clip (x lo hi : ℝ) : ℝ := min (max x lo) hi

/-- Componentwise `numpy.clip` of a 3-vector to `[-lim, lim]`. -/
def clip3 (v lim : Vec3) : Vec3 :=
  ⟨np_clip v.x (-lim.x) lim.x, np_clip v.y (-lim.y) lim.y, np_clip v.z (-lim.z) lim.z⟩

/-- Componentwise `numpy.clip` of a 3-vector to `[lo, hi]`. -/
def clip3pair (v lo hi : Vec3) : Vec3 :=
  ⟨np_clip v.x lo.x hi.x, np_clip v.y lo.y hi.y, np_clip v.z lo.z hi.z⟩

/-- Modelled from the spec: `numpy.arctan2`, embedded as the argument of the
complex number `x + y*i`, with range `(-pi, pi]` and `arctan2 0 0 = 0`. -/
def np_arctan2 (y x : ℝ) : ℝ := Complex.arg ⟨x, y⟩

/-! ## Quaternions

The source stores quaternions as length-4 arrays `[w, x, y, z]` and operates
on them through `utils`; we embed them as `Quaternion ℝ`. -/

/-- Builds a quaternion from its four components, in the source's
`[q0, q1, q2, q3]` (scalar-first) order. -/
def mkQ (a b c d : ℝ) : Quaternion ℝ := ⟨a, b, c, d⟩

/-- The pure (zero scalar part) quaternion of a 3-vector. -/
def pureQ (v : Vec3) : Quaternion ℝ := ⟨0, v.x, v.y, v.z⟩

/-- Modelled from the spec: `utils.vectNormalize` on a 3-vector divides the
vector by its Euclidean norm. -/
def vectNormalize (v : Vec3) : Vec3 := Vec3.smul (Vec3.norm v)⁻¹ v

/-- Modelled from the spec: `utils.vectNormalize` applied to a length-4 array
(a quaternion) divides it by its Euclidean norm. -/
def quatNormalize (q : Quaternion ℝ) : Quaternion ℝ :=
  (Real.sqrt (Quaternion.normSq q))⁻¹ • q

/-- Modelled from the spec: `utils.quatMultiply` is the Hamilton product. -/
def quatMultiply (p q : Quaternion ℝ) : Quaternion ℝ := p * q

/-- Modelled from the spec: `utils.inverse` is the quaternion inverse, i.e.
the conjugate divided by the squared norm (equal to the conjugate on unit
quaternions). -/
def quatInverse (q : Quaternion ℝ) : Quaternion ℝ :=
  (Quaternion.normSq q)⁻¹ • star q

/-- Modelled from the spec: `utils.quat2Dcm` turns a (unit) quaternion into
its direction-cosine matrix by the standard quadratic formula. -/
def quat2Dcm (q : Quaternion ℝ) : Mat3 :=
  ⟨⟨q.re ^ 2 + q.imI ^ 2 - q.imJ ^ 2 - q.imK ^ 2,
    2 * (q.imI * q.imJ + q.re * q.imK),
    2 * (q.imI * q.imK - q.re * q.imJ)⟩,
   ⟨2 * (q.imI * q.imJ - q.re * q.imK),
    q.re ^ 2 - q.imI ^ 2 + q.imJ ^ 2 - q.imK ^ 2,
    2 * (q.imJ * q.imK + q.re * q.imI)⟩,
   ⟨2 * (q.imI * q.imK + q.re * q.imJ),
    2 * (q.imJ * q.imK - q.re * q.imI),
    q.re ^ 2 - q.imI ^ 2 - q.imJ ^ 2 + q.imK ^ 2⟩⟩

/-- Modelled from the spec: `utils.RotToQuat` converts the assembled rotation
matrix (orthonormal columns) to a unit quaternion; generic (positive-trace)
branch of the standard conversion, followed by a normalisation. -/
def RotToQuat (R : Mat3) : Quaternion ℝ :=
  let tr := R.c1.x + R.c2.y + R.c3.z
  let e0 := 0.5 * Real.sqrt (1 + tr)
  let r := 0.25 / e0
  quatNormalize (mkQ e0 ((R.c2.z - R.c3.y) * r) ((R.c3.x - R.c1.z) * r)
    ((R.c1.y - R.c2.x) * r))

/-! ## Configuration and inputs (`ctrl.py` lines 28-122, `config.orient`) -/

/-- The process-wide orientation-frame convention from `config.py`. -/
inductive Orient where
  | NED : Orient
  | ENU : Orient

/-- The gain/limit dictionary `params` at the top of `ctrl.py`. -/
structure Params where
  Py : ℝ
  Px : ℝ
  Pz : ℝ
  Pxdot : ℝ
  Dxdot : ℝ
  Ixdot : ℝ
  Pydot : ℝ
  Dydot : ℝ
  Iydot : ℝ
  Pzdot : ℝ
  Dzdot : ℝ
  Izdot : ℝ
  Pphi : ℝ
  Ptheta : ℝ
  Ppsi : ℝ
  Pp : ℝ
  Dp : ℝ
  Pq : ℝ
  Dq : ℝ
  Pr : ℝ
  Dr : ℝ
  uMax : ℝ
  vMax : ℝ
  wMax : ℝ
  saturateVel_separately : Bool
  tiltMax : ℝ
  pMax : ℝ
  qMax : ℝ
  rMax : ℝ

/-- The default `params` dictionary of `ctrl.py`. -/
def defaultParams : Params where
  Py := 2
  Px := 2
  Pz := 1
  Pxdot := 5
  Dxdot := 0.5
  Ixdot := 5
  Pydot := 5
  Dydot := 0.5
  Iydot := 5
  Pzdot := 4
  Dzdot := 0.5
  Izdot := 5
  Pphi := 8
  Ptheta := 8
  Ppsi := 1.5
  Pp := 1.5
  Dp := 0.04
  Pq := 1.5
  Dq := 0.04
  Pr := 1
  Dr := 0.1
  uMax := 5
  vMax := 5
  wMax := 5
  saturateVel_separately := false
  tiltMax := 50
  pMax := 200
  qMax := 200
  rMax := 150

/-- The static configuration fields set up by `Control.__init__`. -/
structure Config where
  saturateVel_separately : Bool
  tiltMax : ℝ
  pos_P_gain : Vec3
  vel_P_gain : Vec3
  vel_D_gain : Vec3
  vel_I_gain : Vec3
  att_P_gain : Vec3
  rate_P_gain : Vec3
  rate_D_gain : Vec3
  velMax : Vec3
  velMaxAll : ℝ
  rateMax : Vec3
  yaw_w : ℝ

def deg2rad : ℝ := Real.pi / 180

/-- `Control.setYawWeight` (lines 384-390): computes the yaw weight and
overwrites the yaw attitude P gain with the roll/pitch average. -/
def setYawWeight (att_P_gain : Vec3) : ℝ × Vec3 :=
  let roll_pitch_gain := 0.5 * (att_P_gain.x + att_P_gain.y)
  let yaw_w := np_clip (att_P_gain.z / roll_pitch_gain) 0 1
  (yaw_w, ⟨att_P_gain.x, att_P_gain.y, roll_pitch_gain⟩)

/-- `Control.__init__` (lines 81-122): resolution of the static
configuration from `params` and `yawType`. -/
def ctrlInit (p : Params) (yawType : ℤ) : Config :=
  let att0 : Vec3 := ⟨p.Pphi, p.Ptheta, p.Ppsi⟩
  let att1 : Vec3 := if yawType = 0 then ⟨att0.x, att0.y, 0⟩ else att0
  let yw := setYawWeight att1
  { saturateVel_separately := p.saturateVel_separately
    tiltMax := p.tiltMax * deg2rad
    pos_P_gain := ⟨p.Px, p.Py, p.Pz⟩
    vel_P_gain := ⟨p.Pxdot, p.Pydot, p.Pzdot⟩
    vel_D_gain := ⟨p.Dxdot, p.Dydot, p.Dzdot⟩
    vel_I_gain := ⟨p.Ixdot, p.Iydot, p.Izdot⟩
    att_P_gain := yw.2
    rate_P_gain := ⟨p.Pp, p.Pq, p.Pr⟩
    rate_D_gain := ⟨p.Dp, p.Dq, p.Dr⟩
    velMax := ⟨p.uMax, p.vMax, p.wMax⟩
    velMaxAll := min (min p.uMax p.vMax) p.wMax
    rateMax := ⟨p.pMax * deg2rad, p.qMax * deg2rad, p.rMax * deg2rad⟩
    yaw_w := yw.1 }

/-- The vehicle parameter set read by the controller (`quad.params`). -/
structure QuadParams where
  mB : ℝ
  g : ℝ
  minThr : ℝ
  maxThr : ℝ
  useIntergral : ℝ
  w_hover : ℝ

/-- The vehicle state read by the controller each tick. -/
structure QuadState where
  pos : Vec3
  vel : Vec3
  vel_dot : Vec3
  quat : Quaternion ℝ
  dcm : Mat3
  omega : Vec3
  omega_dot : Vec3

/-- The potential-field collaborator: repulsive force and coupling gains. -/
structure PotField where
  F_rep : Vec3
  pfVel : ℝ
  pfFor : ℝ
  pfSatFor : ℝ

/-! ## Cascade stages (`ctrl.py` lines 179-390) -/

/-- `Control.z_pos_control` (lines 179-184). -/
def z_pos_control (cfg : Config) (pos_sp pos : Vec3) (vel_sp : Vec3) : Vec3 :=
  let pos_z_error := pos_sp.z - pos.z
  ⟨vel_sp.x, vel_sp.y, vel_sp.z + cfg.pos_P_gain.z * pos_z_error⟩

/-- `Control.xy_pos_control` (lines 187-192). -/
def xy_pos_control (cfg : Config) (pos_sp pos : Vec3) (vel_sp : Vec3) : Vec3 :=
  ⟨vel_sp.x + cfg.pos_P_gain.x * (pos_sp.x - pos.x),
   vel_sp.y + cfg.pos_P_gain.y * (pos_sp.y - pos.y),
   vel_sp.z⟩

/-- `Control.saturateVel` (lines 195-205). -/
def saturateVel (cfg : Config) (vel_sp : Vec3) : Vec3 :=
  if cfg.saturateVel_separately then
    clip3 vel_sp cfg.velMax
  else
    let totalVel_sp := Vec3.norm vel_sp
    if totalVel_sp > cfg.velMaxAll then
      Vec3.smul (cfg.velMaxAll / totalVel_sp) vel_sp
    else vel_sp

/-- `Control.addFrepToVel` (lines 208-211). -/
def addFrepToVel (potfld : PotField) (vel_sp : Vec3) : Vec3 :=
  Vec3.add vel_sp (Vec3.smul potfld.pfVel potfld.F_rep)

/-- `Control.yaw_follow` (lines 214-236).  Takes the trajectory fields it
reads (`yawType`, `omit_yaw_follow`, `current_heading`) and the controller
fields it may update; returns `(eul_sp_z, yawFF, current_heading)`. -/
def yaw_follow (trajYawType omit_yaw_follow : ℤ) (vel_sp : Vec3)
    (eul_sp_z yawFF current_heading Ts : ℝ) : ℝ × ℝ × ℝ :=
  if trajYawType = 4 ∧ omit_yaw_follow = 0 then
    let totalVel_sp := Vec3.norm vel_sp
    if totalVel_sp > 0.1 then
      let e := np_arctan2 vel_sp.y vel_sp.x
      let ch :=
        if np_sign e - np_sign current_heading ≠ 0 ∧
            |e - current_heading| ≥ 2 * Real.pi - 0.1 then
          current_heading + np_sign e * 2 * Real.pi
        else current_heading
      let delta_psi := e - ch
      (e, delta_psi / Ts, e)
    else (eul_sp_z, yawFF, current_heading)
  else (eul_sp_z, yawFF, current_heading)

/-- `Control.z_vel_control` (lines 239-274).  Returns the updated
`(thr_int_z, thrust_sp_z)`. -/
def z_vel_control (orient : Orient) (cfg : Config) (qp : QuadParams)
    (vel_sp acc_sp vel vel_dot : Vec3) (thr_int_z : ℝ) (potfld : PotField)
    (Ts : ℝ) : ℝ × ℝ :=
  let vel_z_error := vel_sp.z - vel.z
  let thrust_z_sp :=
    match orient with
    | Orient.NED =>
        cfg.vel_P_gain.z * vel_z_error - cfg.vel_D_gain.z * vel_dot.z +
          qp.mB * (acc_sp.z - qp.g) + thr_int_z +
          potfld.pfSatFor * potfld.F_rep.z
    | Orient.ENU =>
        cfg.vel_P_gain.z * vel_z_error - cfg.vel_D_gain.z * vel_dot.z +
          qp.mB * (acc_sp.z + qp.g) + thr_int_z +
          potfld.pfSatFor * potfld.F_rep.z
  let uMax := match orient with | Orient.NED => -qp.minThr | Orient.ENU => qp.maxThr
  let uMin := match orient with | Orient.NED => -qp.maxThr | Orient.ENU => qp.minThr
  let stop_int_D :=
    (thrust_z_sp ≥ uMax ∧ vel_z_error ≥ 0) ∨ (thrust_z_sp ≤ uMin ∧ vel_z_error ≤ 0)
  let thr_int_z' :=
    if stop_int_D then thr_int_z
    else
      let v := thr_int_z + cfg.vel_I_gain.z * vel_z_error * Ts * qp.useIntergral
      min |v| qp.maxThr * np_sign v
  (thr_int_z', np_clip thrust_z_sp uMin uMax)

/-- `Control.xy_vel_control` (lines 277-301).  Returns the updated
`(thrust_sp_xy, thr_int_xy)`. -/
def xy_vel_control (cfg : Config) (qp : QuadParams)
    (vel_sp acc_sp vel vel_dot : Vec3) (thr_int_xy : Vec2) (thrust_sp_z : ℝ)
    (potfld : PotField) (Ts : ℝ) : Vec2 × Vec2 :=
  let vel_xy_error : Vec2 := ⟨vel_sp.x - vel.x, vel_sp.y - vel.y⟩
  let thrust_xy_sp : Vec2 :=
    ⟨cfg.vel_P_gain.x * vel_xy_error.x - cfg.vel_D_gain.x * vel_dot.x +
        qp.mB * acc_sp.x + thr_int_xy.x + potfld.pfSatFor * potfld.F_rep.x,
     cfg.vel_P_gain.y * vel_xy_error.y - cfg.vel_D_gain.y * vel_dot.y +
        qp.mB * acc_sp.y + thr_int_xy.y + potfld.pfSatFor * potfld.F_rep.y⟩
  let thrust_max_xy_tilt := |thrust_sp_z| * Real.tan cfg.tiltMax
  let thrust_max_xy0 := Real.sqrt (qp.maxThr ^ 2 - thrust_sp_z ^ 2)
  let thrust_max_xy := min thrust_max_xy0 thrust_max_xy_tilt
  let thrust_sp_xy :=
    if Vec2.dot thrust_xy_sp thrust_xy_sp > thrust_max_xy ^ 2 then
      let mag := Vec2.norm thrust_xy_sp
      Vec2.smul (thrust_max_xy / mag) thrust_xy_sp
    else thrust_xy_sp
  let arw_gain : Vec2 := ⟨2 / cfg.vel_P_gain.x, 2 / cfg.vel_P_gain.y⟩
  let vel_err_lim :=
    Vec2.sub vel_xy_error (Vec2.hmul (Vec2.sub thrust_xy_sp thrust_sp_xy) arw_gain)
  let thr_int_xy' :=
    Vec2.add thr_int_xy
      (Vec2.smul (Ts * qp.useIntergral)
        (Vec2.hmul ⟨cfg.vel_I_gain.x, cfg.vel_I_gain.y⟩ vel_err_lim))
  (thrust_sp_xy, thr_int_xy')

/-- `Control.thrustToAttitude` (lines 304-333).  Returns
`(thrust_rep_sp, qd_full)`. -/
def thrustToAttitude (orient : Orient) (potfld : PotField) (thrust_sp : Vec3)
    (yaw_sp : ℝ) : Vec3 × Quaternion ℝ :=
  let thrust_rep_sp := Vec3.add thrust_sp (Vec3.smul potfld.pfFor potfld.F_rep)
  let body_z0 := Vec3.smul (-1) (vectNormalize thrust_rep_sp)
  let body_z := match orient with
    | Orient.NED => body_z0
    | Orient.ENU => Vec3.smul (-1) body_z0
  let y_C : Vec3 := ⟨-Real.sin yaw_sp, Real.cos yaw_sp, 0⟩
  let body_x := vectNormalize (Vec3.cross y_C body_z)
  let body_y := Vec3.cross body_z body_x
  let R_sp : Mat3 := ⟨body_x, body_y, body_z⟩
  (thrust_rep_sp, RotToQuat R_sp)

/-- The outputs written by `Control.attitude_control`. -/
structure AttOut where
  qd_red : Quaternion ℝ
  qd : Quaternion ℝ
  qe : Quaternion ℝ
  rate_sp : Vec3
  yawFF : ℝ

/-- `Control.attitude_control` (lines 336-373). -/
def attitude_control (orient : Orient) (cfg : Config) (quat : Quaternion ℝ)
    (dcm : Mat3) (thrust_rep_sp : Vec3) (qd_full : Quaternion ℝ)
    (yawFF : ℝ) : AttOut :=
  let e_z := dcm.c3
  let e_z_d0 := Vec3.smul (-1) (vectNormalize thrust_rep_sp)
  let e_z_d := match orient with
    | Orient.NED => e_z_d0
    | Orient.ENU => Vec3.smul (-1) e_z_d0
  let qe_red_raw := mkQ
    (Vec3.dot e_z e_z_d + Real.sqrt (Vec3.norm e_z ^ 2 * Vec3.norm e_z_d ^ 2))
    (Vec3.cross e_z e_z_d).x (Vec3.cross e_z e_z_d).y (Vec3.cross e_z e_z_d).z
  let qe_red := quatNormalize qe_red_raw
  let qd_red := quatMultiply qe_red quat
  let q_mix0 := quatMultiply (quatInverse qd_red) qd_full
  let q_mix := np_sign q_mix0.re • q_mix0
  let q_mix_re := np_clip q_mix.re (-1) 1
  let q_mix_imK := np_clip q_mix.imK (-1) 1
  let qd := quatMultiply qd_red
    (mkQ (Real.cos (cfg.yaw_w * Real.arccos q_mix_re)) 0 0
      (Real.sin (cfg.yaw_w * Real.arcsin q_mix_imK)))
  let qe := quatMultiply (quatInverse quat) qd
  let rate_sp0 := Vec3.hmul
    (Vec3.smul (2 * np_sign qe.re) ⟨qe.imI, qe.imJ, qe.imK⟩) cfg.att_P_gain
  let yawFF' := np_clip yawFF (-cfg.rateMax.z) cfg.rateMax.z
  let rate_sp1 := Vec3.add rate_sp0 (Vec3.smul yawFF' (quat2Dcm (quatInverse quat)).c3)
  { qd_red := qd_red
    qd := qd
    qe := qe
    rate_sp := clip3 rate_sp1 cfg.rateMax
    yawFF := yawFF' }

/-- `Control.rate_control` (lines 376-381). -/
def rate_control (cfg : Config) (rate_sp omega omega_dot : Vec3) : Vec3 :=
  let rate_error := Vec3.sub rate_sp omega
  Vec3.sub (Vec3.hmul cfg.rate_P_gain rate_error) (Vec3.hmul cfg.rate_D_gain omega_dot)

/-! ## One controller tick (`Control.controller`, lines 124-176) -/

/-- The trajectory collaborator's fields read by one tick: the 19-slot
desired-state vector `sDes`, the mode tags, and the mutable heading. -/
structure TrajIn where
  sDes_pos : Vec3
  sDes_vel : Vec3
  sDes_acc : Vec3
  sDes_thrust : Vec3
  sDes_eul : Vec3
  sDes_pqr : Vec3
  sDes_yawFF : ℝ
  ctrlType : String
  yawType : ℤ
  omit_yaw_follow : ℤ
  current_heading : ℝ

/-- The 16-slot `sDesCalc` logging vector (position, velocity, thrust,
desired quaternion, rate setpoint). -/
structure SDes where
  pos : Vec3
  vel : Vec3
  thrust : Vec3
  quat : Quaternion ℝ
  rate : Vec3

/-- The mutable controller state.  Attributes that `Control.__init__` never
assigns (`qd_full`, `qd_red`, `qd`, `qe`, `rate_sp`, `rateCtrl`) are
`Option`s, `none` meaning "attribute not yet defined". -/
structure CtrlState where
  pos_sp : Vec3
  vel_sp : Vec3
  acc_sp : Vec3
  thrust_sp : Vec3
  thrust_rep_sp : Vec3
  eul_sp : Vec3
  pqr_sp : Vec3
  yawFF : ℝ
  thr_int : Vec3
  qd_full : Option (Quaternion ℝ)
  qd_red : Option (Quaternion ℝ)
  qd : Option (Quaternion ℝ)
  qe : Option (Quaternion ℝ)
  rate_sp : Option Vec3
  rateCtrl : Option Vec3
  sDesCalc : SDes
  mixerArgs : Option (ℝ × Vec3)

/-- The controller state as left by `Control.__init__` (lines 109-122). -/
def initState : CtrlState where
  pos_sp := Vec3.zero
  vel_sp := Vec3.zero
  acc_sp := Vec3.zero
  thrust_sp := Vec3.zero
  thrust_rep_sp := Vec3.zero
  eul_sp := Vec3.zero
  pqr_sp := Vec3.zero
  yawFF := 0
  thr_int := Vec3.zero
  qd_full := none
  qd_red := none
  qd := none
  qe := none
  rate_sp := none
  rateCtrl := none
  sDesCalc := ⟨Vec3.zero, Vec3.zero, Vec3.zero, mkQ 0 0 0 0, Vec3.zero⟩
  mixerArgs := none

/-- The values produced by the common tail of the cascade
(z/xy velocity loops, thrust-to-attitude mapper, attitude and rate control),
which every recognized mode runs in the same order. -/
structure CoreOut where
  thrust_sp : Vec3
  thrust_rep_sp : Vec3
  thr_int : Vec3
  qd_full : Quaternion ℝ
  qd_red : Quaternion ℝ
  qd : Quaternion ℝ
  qe : Quaternion ℝ
  rate_sp : Vec3
  rateCtrl : Vec3
  yawFF : ℝ

/-- The cascade tail shared by all three recognized modes:
`z_vel_control`, `xy_vel_control`, `thrustToAttitude`, `attitude_control`,
`rate_control` (lines 138-164), in source order. -/
def cascadeCore (orient : Orient) (cfg : Config) (qs : QuadState)
    (qp : QuadParams) (potfld : PotField) (Ts : ℝ) (vel_sp acc_sp : Vec3)
    (eul_sp_z yawFF : ℝ) (thr_int : Vec3) : CoreOut :=
  let zv := z_vel_control orient cfg qp vel_sp acc_sp qs.vel qs.vel_dot
    thr_int.z potfld Ts
  let xyv := xy_vel_control cfg qp vel_sp acc_sp qs.vel qs.vel_dot
    ⟨thr_int.x, thr_int.y⟩ zv.2 potfld Ts
  let thrust_sp : Vec3 := ⟨xyv.1.x, xyv.1.y, zv.2⟩
  let tta := thrustToAttitude orient potfld thrust_sp eul_sp_z
  let att := attitude_control orient cfg qs.quat qs.dcm tta.1 tta.2 yawFF
  let rateCtrl := rate_control cfg att.rate_sp qs.omega qs.omega_dot
  { thrust_sp := thrust_sp
    thrust_rep_sp := tta.1
    thr_int := ⟨xyv.2.x, xyv.2.y, zv.1⟩
    qd_full := tta.2
    qd_red := att.qd_red
    qd := att.qd
    qe := att.qe
    rate_sp := att.rate_sp
    rateCtrl := rateCtrl
    yawFF := att.yawFF }

/-- Assembles the post-tick controller state from the cascade-tail outputs,
including the mixer arguments (line 168) and `sDesCalc` (lines 172-176). -/
def assembleState (pos_sp vel_sp acc_sp eul_sp pqr_sp : Vec3)
    (co : CoreOut) : CtrlState where
  pos_sp := pos_sp
  vel_sp := vel_sp
  acc_sp := acc_sp
  thrust_sp := co.thrust_sp
  thrust_rep_sp := co.thrust_rep_sp
  eul_sp := eul_sp
  pqr_sp := pqr_sp
  yawFF := co.yawFF
  thr_int := co.thr_int
  qd_full := some co.qd_full
  qd_red := some co.qd_red
  qd := some co.qd
  qe := some co.qe
  rate_sp := some co.rate_sp
  rateCtrl := some co.rateCtrl
  sDesCalc := ⟨pos_sp, vel_sp, co.thrust_sp, co.qd, co.rate_sp⟩
  mixerArgs := some (Vec3.norm co.thrust_rep_sp, co.rateCtrl)

/-- One tick of `Control.controller` (lines 124-176).  Returns the updated
controller state and trajectory heading, or `none` when the tick raises an
`AttributeError` by reading a never-assigned attribute (which happens on a
fresh controller when the mode tag is not one of the three recognized
strings).  The external mixer is out of scope; its two arguments are
recorded in `mixerArgs`. -/
def controllerTick (orient : Orient) (cfg : Config) (traj : TrajIn)
    (qs : QuadState) (qp : QuadParams) (potfld : PotField) (Ts : ℝ)
    (st : CtrlState) : Option (CtrlState × ℝ) :=
  let pos_sp := traj.sDes_pos
  let acc_sp := traj.sDes_acc
  let pqr_sp := traj.sDes_pqr
  if traj.ctrlType = "xyz_vel" then
    let vel_sp := saturateVel cfg traj.sDes_vel
    let co := cascadeCore orient cfg qs qp potfld Ts vel_sp acc_sp
      traj.sDes_eul.z traj.sDes_yawFF st.thr_int
    some (assembleState pos_sp vel_sp acc_sp traj.sDes_eul pqr_sp co,
      traj.current_heading)
  else if traj.ctrlType = "xy_vel_z_pos" then
    let vel_sp0 := z_pos_control cfg pos_sp qs.pos traj.sDes_vel
    let vel_sp := saturateVel cfg vel_sp0
    let co := cascadeCore orient cfg qs qp potfld Ts vel_sp acc_sp
      traj.sDes_eul.z traj.sDes_yawFF st.thr_int
    some (assembleState pos_sp vel_sp acc_sp traj.sDes_eul pqr_sp co,
      traj.current_heading)
  else if traj.ctrlType = "xyz_pos" then
    let v1 := z_pos_control cfg pos_sp qs.pos traj.sDes_vel
    let v2 := xy_pos_control cfg pos_sp qs.pos v1
    let v3 := saturateVel cfg v2
    let v4 := addFrepToVel potfld v3
    let v5 := saturateVel cfg v4
    let yf := yaw_follow traj.yawType traj.omit_yaw_follow v5 traj.sDes_eul.z
      traj.sDes_yawFF traj.current_heading Ts
    let co := cascadeCore orient cfg qs qp potfld Ts v5 acc_sp yf.1 yf.2.1
      st.thr_int
    some (assembleState pos_sp v5 acc_sp ⟨traj.sDes_eul.x, traj.sDes_eul.y, yf.1⟩
      pqr_sp co, yf.2.2)
  else
    st.rateCtrl.bind fun rc =>
    st.qd.bind fun qdv =>
    st.rate_sp.bind fun rsp =>
    some ({ st with
      pos_sp := pos_sp
      vel_sp := traj.sDes_vel
      acc_sp := acc_sp
      thrust_sp := traj.sDes_thrust
      eul_sp := traj.sDes_eul
      pqr_sp := pqr_sp
      yawFF := traj.sDes_yawFF
      sDesCalc := ⟨pos_sp, traj.sDes_vel, traj.sDes_thrust, qdv, rsp⟩
      mixerArgs := some (Vec3.norm st.thrust_rep_sp, rc) },
      traj.current_heading)

/-! ## Concrete instances used to exercise the theorems -/

/-- The controller configuration obtained from the default `params` with the
"follow" yaw mode (`yawType = 3`), as in `run_3D_simulation.py`. -/
def cfgD : Config := ctrlInit defaultParams 3

/-- A sample vehicle parameter set (mass 1, gravity 10, thrust range
`[0.1, 30]`, integral action enabled). -/
def qpD : QuadParams := ⟨1, 10, 0.1, 30, 1, 100⟩

/-- A vehicle parameter set with a small thrust ceiling `maxThr = 1`. -/
def qpC : QuadParams := ⟨1, 10, 0, 1, 1, 100⟩

/-- A potential field producing no force and no coupling. -/
def pfZero : PotField := ⟨Vec3.zero, 0, 0, 0⟩

/-- A vehicle at rest at the origin with identity orientation. -/
def qsD : QuadState :=
  ⟨Vec3.zero, Vec3.zero, Vec3.zero, mkQ 1 0 0 0, quat2Dcm (mkQ 1 0 0 0),
    Vec3.zero, Vec3.zero⟩

/-- A trajectory input carrying an unrecognized control-mode tag. -/
def trajX : TrajIn :=
  ⟨Vec3.zero, Vec3.zero, Vec3.zero, Vec3.zero, Vec3.zero, Vec3.zero, 0,
    "bogus", 0, 0, 0⟩

/-! ## Abbreviations used in the quaternion-geometry development -/

/-- The first standard basis vector. -/
def e1v : Vec3 := ⟨1, 0, 0⟩

/-- The second standard basis vector. -/
def e2v : Vec3 := ⟨0, 1, 0⟩

/-- The third standard basis vector (the body-down axis in the body frame). -/
def e3v : Vec3 := ⟨0, 0, 1⟩

/-- The unnormalized alignment quaternion `(a . b + 1, a x b)` built by
`attitude_control` from two unit vectors (the source adds
`sqrt(norm(a)^2 * norm(b)^2)`, which is `1` there). -/
def rawAlign (a b : Vec3) : Quaternion ℝ :=
  mkQ (Vec3.dot a b + 1) (Vec3.cross a b).x (Vec3.cross a b).y (Vec3.cross a b).z

/-- The unnormalized quaternion of a rotation matrix with columns
`x, y, z` in the positive-trace branch: `(1 + tr, R32-R23, R13-R31, R21-R12)`.
`RotToQuat` returns its normalisation, scaled by `1 / (2 sqrt(1+tr))`. -/
def Qframe (x y z : Vec3) : Quaternion ℝ :=
  mkQ (1 + (x.x + y.y + z.z)) (y.z - z.y) (z.x - x.z) (x.y - y.x)

/-- The desired thrust direction (desired body-z axis) as resolved by both
`thrustToAttitude` (as `body_z`) and `attitude_control` (as `e_z_d`) from the
repulsion-augmented thrust vector and the frame convention. -/
def ezdOf (orient : Orient) (trep : Vec3) : Vec3 :=
  match orient with
  | Orient.NED => Vec3.smul (-1) (vectNormalize trep)
  | Orient.ENU => Vec3.smul (-1) (Vec3.smul (-1) (vectNormalize trep))

/-- The level orientation with heading `psi`: a pure yaw rotation. -/
def qpsi (psi : ℝ) : Quaternion ℝ :=
  mkQ (Real.cos (psi / 2)) 0 0 (Real.sin (psi / 2))

/-- A hover trajectory input in `xyz_pos` mode: position setpoint at the
current position, zero velocity / acceleration / thrust / body-rate
setpoints, commanded yaw `psi`, zero yaw feed-forward. -/
def hoverTraj (pos : Vec3) (psi ch : ℝ) : TrajIn :=
  ⟨pos, Vec3.zero, Vec3.zero, Vec3.zero, ⟨0, 0, psi⟩, Vec3.zero, 0,
    "xyz_pos", 4, 0, ch⟩

/-- A hovering vehicle: at `pos`, zero velocity, acceleration, body rates
and their derivatives, level orientation with heading `psi`, consistent
DCM. -/
def hoverQuad (pos : Vec3) (psi : ℝ) : QuadState :=
  ⟨pos, Vec3.zero, Vec3.zero, qpsi psi, quat2Dcm (qpsi psi), Vec3.zero,
    Vec3.zero⟩

/-- Attitude-stage scenario: the vehicle currently yawed +90 degrees. -/
def cexQuat : Quaternion ℝ := mkQ (Real.sqrt 2 / 2) 0 0 (Real.sqrt 2 / 2)

/-- Attitude-stage scenario: thrust command straight up (NED). -/
def cexThrust : Vec3 := ⟨0, 0, -1⟩

/-- `thrustToAttitude` output for the yawed scenario (commanded yaw -90
degrees). -/
def cexTta : Vec3 × Quaternion ℝ :=
  thrustToAttitude Orient.NED pfZero cexThrust (-(Real.pi / 2))

/-- `attitude_control` output for the yawed scenario. -/
def cexOut : AttOut :=
  attitude_control Orient.NED cfgD cexQuat (quat2Dcm cexQuat) cexTta.1 cexTta.2 0

/-- `thrustToAttitude` output for a level vehicle, thrust straight up,
zero commanded yaw. -/
def witTta : Vec3 × Quaternion ℝ :=
  thrustToAttitude Orient.NED pfZero cexThrust 0

/-- `attitude_control` output for the level scenario. -/
def witOut : AttOut :=
  attitude_control Orient.NED cfgD 1 (quat2Dcm 1) witTta.1 witTta.2 0

/-! ## Basic lemmas about the numeric primitives -/

theorem np_clip_le_right (x lo hi : ℝ) : np_clip x lo hi ≤ hi :=
  min_le_right _ _

theorem np_clip_eq_self {x lo hi : ℝ} (h1 : lo ≤ x) (h2 : x ≤ hi) :
    np_clip x lo hi = x := by
  unfold np_clip
  rw [max_eq_left h1, min_eq_left h2]

theorem abs_np_clip_le {m : ℝ} (x : ℝ) (hm : 0 ≤ m) :
    |np_clip x (-m) m| ≤ m := by
  unfold np_clip
  rw [abs_le]
  constructor
  · exact le_min (le_max_right _ _) (by linarith)
  · exact min_le_right _ _

theorem abs_mul_np_sign (x : ℝ) : |x| * np_sign x = x := by
  unfold np_sign
  rcases lt_trichotomy 0 x with h | h | h
  · rw [if_pos h, mul_one, abs_of_pos h]
  · simp [← h]
  · rw [if_neg (not_lt.mpr h.le), if_pos h, abs_of_neg h]; ring

theorem dot3_self_nonneg (v : Vec3) : 0 ≤ Vec3.dot v v := by
  unfold Vec3.dot
  have hx := mul_self_nonneg v.x
  have hy := mul_self_nonneg v.y
  have hz := mul_self_nonneg v.z
  linarith

theorem dot2_self_nonneg (v : Vec2) : 0 ≤ Vec2.dot v v := by
  unfold Vec2.dot
  have hx := mul_self_nonneg v.x
  have hy := mul_self_nonneg v.y
  linarith

theorem norm3_nonneg (v : Vec3) : 0 ≤ Vec3.norm v := Real.sqrt_nonneg _

theorem norm3_sq (v : Vec3) : Vec3.norm v ^ 2 = Vec3.dot v v :=
  Real.sq_sqrt (dot3_self_nonneg v)

theorem norm2_sq (v : Vec2) : Vec2.norm v ^ 2 = Vec2.dot v v :=
  Real.sq_sqrt (dot2_self_nonneg v)

theorem norm3_smul (c : ℝ) (v : Vec3) :
    Vec3.norm (Vec3.smul c v) = |c| * Vec3.norm v := by
  unfold Vec3.norm Vec3.smul Vec3.dot
  rw [show c * v.x * (c * v.x) + c * v.y * (c * v.y) + c * v.z * (c * v.z) =
    c ^ 2 * (v.x * v.x + v.y * v.y + v.z * v.z) by ring,
    Real.sqrt_mul (sq_nonneg c), Real.sqrt_sq_eq_abs]

theorem norm2_smul (c : ℝ) (v : Vec2) :
    Vec2.norm (Vec2.smul c v) = |c| * Vec2.norm v := by
  unfold Vec2.norm Vec2.smul Vec2.dot
  rw [show c * v.x * (c * v.x) + c * v.y * (c * v.y) =
    c ^ 2 * (v.x * v.x + v.y * v.y) by ring,
    Real.sqrt_mul (sq_nonneg c), Real.sqrt_sq_eq_abs]

theorem norm3_pos_of_dot_pos {v : Vec3} (h : 0 < Vec3.dot v v) :
    0 < Vec3.norm v := Real.sqrt_pos.mpr h

theorem norm2_pos_of_dot_pos {v : Vec2} (h : 0 < Vec2.dot v v) :
    0 < Vec2.norm v := Real.sqrt_pos.mpr h

/-! ## Claim C2: conditional-clamping anti-windup of the Z velocity loop -/

/-- Claim C2: in the Z velocity loop, when the unclamped Z thrust is already
saturated in the direction the velocity error pushes (`thrust_z_sp >= uMax`
with nonnegative error, or `thrust_z_sp <= uMin` with nonpositive error) the
integral accumulator `thr_int[2]` is left unchanged; otherwise the increment
`vel_I_gain[2] * vel_z_error * Ts * useIntergral` is accumulated (and the
magnitude clamp is applied, which is the identity while the accumulated
value stays within `maxThr`). -/
theorem z_vel_control_anti_windup (orient : Orient) (cfg : Config)
    (qp : QuadParams) (vel_sp acc_sp vel vel_dot : Vec3) (thr_int_z : ℝ)
    (potfld : PotField) (Ts : ℝ) (u e uMax uMin : ℝ)
    (he : e = vel_sp.z - vel.z)
    (hu : u = (match orient with
      | Orient.NED =>
          cfg.vel_P_gain.z * (vel_sp.z - vel.z) - cfg.vel_D_gain.z * vel_dot.z +
            qp.mB * (acc_sp.z - qp.g) + thr_int_z +
            potfld.pfSatFor * potfld.F_rep.z
      | Orient.ENU =>
          cfg.vel_P_gain.z * (vel_sp.z - vel.z) - cfg.vel_D_gain.z * vel_dot.z +
            qp.mB * (acc_sp.z + qp.g) + thr_int_z +
            potfld.pfSatFor * potfld.F_rep.z))
    (hMax : uMax = (match orient with | Orient.NED => -qp.minThr | Orient.ENU => qp.maxThr))
    (hMin : uMin = (match orient with | Orient.NED => -qp.maxThr | Orient.ENU => qp.minThr)) :
    ((u ≥ uMax ∧ e ≥ 0) ∨ (u ≤ uMin ∧ e ≤ 0) →
      (z_vel_control orient cfg qp vel_sp acc_sp vel vel_dot thr_int_z potfld Ts).1 =
        thr_int_z) ∧
    (¬ ((u ≥ uMax ∧ e ≥ 0) ∨ (u ≤ uMin ∧ e ≤ 0)) →
      (z_vel_control orient cfg qp vel_sp acc_sp vel vel_dot thr_int_z potfld Ts).1 =
        min |thr_int_z + cfg.vel_I_gain.z * e * Ts * qp.useIntergral| qp.maxThr *
          np_sign (thr_int_z + cfg.vel_I_gain.z * e * Ts * qp.useIntergral)) ∧
    (¬ ((u ≥ uMax ∧ e ≥ 0) ∨ (u ≤ uMin ∧ e ≤ 0)) →
      |thr_int_z + cfg.vel_I_gain.z * e * Ts * qp.useIntergral| ≤ qp.maxThr →
      (z_vel_control orient cfg qp vel_sp acc_sp vel vel_dot thr_int_z potfld Ts).1 =
        thr_int_z + cfg.vel_I_gain.z * e * Ts * qp.useIntergral) := by
  cases orient <;>
    (subst he hu hMax hMin
     refine ⟨fun h => ?_, fun h => ?_, fun h hle => ?_⟩ <;> simp only [z_vel_control]
     case _ => rw [if_pos h]
     case _ => rw [if_neg h]
     case _ => rw [if_neg h, min_eq_left hle, abs_mul_np_sign])

/-- Witness for C2: a concrete unsaturated tick of the Z velocity loop in
the NED frame; the accumulator picks up `5 * 1 * 1 * 1 = 5`. -/
theorem z_vel_control_anti_windup_witness :
    (z_vel_control Orient.NED cfgD qpD ⟨0, 0, 1⟩ Vec3.zero Vec3.zero Vec3.zero
      0 pfZero 1).1 = 5 := by
  have h := z_vel_control_anti_windup Orient.NED cfgD qpD ⟨0, 0, 1⟩ Vec3.zero
    Vec3.zero Vec3.zero 0 pfZero 1 _ _ _ _ rfl rfl rfl rfl
  rw [h.2.2]
  all_goals norm_num [cfgD, ctrlInit, defaultParams, setYawWeight, qpD, pfZero, Vec3.zero]

/-! ## Claim C3: magnitude clamping of the integral accumulators -/

theorem abs_clamp_le {v M : ℝ} (hM : 0 ≤ M) : |min |v| M * np_sign v| ≤ M := by
  unfold np_sign
  split_ifs with h1 h2
  · rw [mul_one, abs_of_nonneg (le_min (abs_nonneg v) hM)]
    exact min_le_right _ _
  · rw [mul_neg_one, abs_neg, abs_of_nonneg (le_min (abs_nonneg v) hM)]
    exact min_le_right _ _
  · rw [mul_zero, abs_zero]; exact hM

/-- Counterexample to C3: one tick of the XY velocity loop (with the default
gains, a vehicle whose maximum thrust is `1`, a saturating velocity error and
a zero vertical thrust setpoint) drives the fresh accumulator `thr_int[0]` to
`-5`, beyond the vehicle's maximum thrust; `Control.xy_vel_control` never
magnitude-clamps the XY accumulators. -/
theorem claim_C3_counterexample :
    ¬ |((xy_vel_control cfgD qpC ⟨1, 0, 0⟩ Vec3.zero Vec3.zero Vec3.zero
        ⟨0, 0⟩ 0 pfZero 1).2).x| ≤ qpC.maxThr := by
  simp only [xy_vel_control, cfgD, ctrlInit, defaultParams, setYawWeight, qpC,
    pfZero, Vec3.zero, Vec2.dot, Vec2.sub, Vec2.smul, Vec2.hmul, Vec2.add]
  norm_num [show min (1 : ℝ) 0 = 0 from min_eq_right (by norm_num)]

/-- Claim C3, amended: only the Z accumulator is magnitude-clamped.  After
the Z velocity loop, `|thr_int[2]| <= maxThr` holds whenever `maxThr` is
nonnegative and the bound held on entry (in particular always, starting from
the zero initialization); the XY accumulators have no such clamp (see the
counterexample). -/
theorem z_vel_control_thr_int_clamped (orient : Orient) (cfg : Config)
    (qp : QuadParams) (vel_sp acc_sp vel vel_dot : Vec3) (thr_int_z : ℝ)
    (potfld : PotField) (Ts : ℝ) (hM : 0 ≤ qp.maxThr)
    (hin : |thr_int_z| ≤ qp.maxThr) :
    |(z_vel_control orient cfg qp vel_sp acc_sp vel vel_dot thr_int_z potfld
        Ts).1| ≤ qp.maxThr := by
  cases orient <;>
    (simp only [z_vel_control]
     split_ifs with h
     · exact hin
     · exact abs_clamp_le hM)

/-- Witness for the amended C3 at a concrete saturating input. -/
theorem z_vel_control_thr_int_clamped_witness :
    |(z_vel_control Orient.NED cfgD qpD ⟨0, 0, 1⟩ Vec3.zero Vec3.zero
        Vec3.zero 0 pfZero 1).1| ≤ qpD.maxThr :=
  z_vel_control_thr_int_clamped Orient.NED cfgD qpD ⟨0, 0, 1⟩ Vec3.zero
    Vec3.zero Vec3.zero 0 pfZero 1 (by norm_num [qpD]) (by norm_num [qpD])

/-! ## Claim C4: velocity-setpoint saturation -/

/-- Claim C4: `Control.saturateVel` on a controller built by
`Control.__init__`.  In global mode (the default), whenever the Euclidean
norm of the velocity setpoint exceeds `velMaxAll` (the minimum of the three
per-axis limits) the whole vector is rescaled to that norm, preserving its
direction, and the saturated norm never exceeds `velMaxAll`; in per-axis
mode each component is clamped to its axis interval. -/
theorem saturateVel_correct (p : Params) (yt : ℤ) (v : Vec3)
    (h0 : 0 ≤ min (min p.uMax p.vMax) p.wMax) :
    (p.saturateVel_separately = false →
      (ctrlInit p yt).velMaxAll = min (min p.uMax p.vMax) p.wMax ∧
      (Vec3.norm v > min (min p.uMax p.vMax) p.wMax →
        saturateVel (ctrlInit p yt) v =
          Vec3.smul (min (min p.uMax p.vMax) p.wMax / Vec3.norm v) v ∧
        Vec3.norm (saturateVel (ctrlInit p yt) v) =
          min (min p.uMax p.vMax) p.wMax) ∧
      Vec3.norm (saturateVel (ctrlInit p yt) v) ≤ min (min p.uMax p.vMax) p.wMax) ∧
    (p.saturateVel_separately = true →
      saturateVel (ctrlInit p yt) v = clip3 v ⟨p.uMax, p.vMax, p.wMax⟩) := by
  constructor
  · intro hsep
    have hva : (ctrlInit p yt).velMaxAll = min (min p.uMax p.vMax) p.wMax := rfl
    have hred : ∀ w : Vec3, saturateVel (ctrlInit p yt) w =
        (if Vec3.norm w > min (min p.uMax p.vMax) p.wMax then
          Vec3.smul (min (min p.uMax p.vMax) p.wMax / Vec3.norm w) w else w) := by
      intro w
      unfold saturateVel
      rw [show (ctrlInit p yt).saturateVel_separately = p.saturateVel_separately
        from rfl, hsep]
      simp only [Bool.false_eq_true, if_false]
      rfl
    have hscaled : Vec3.norm v > min (min p.uMax p.vMax) p.wMax →
        saturateVel (ctrlInit p yt) v =
          Vec3.smul (min (min p.uMax p.vMax) p.wMax / Vec3.norm v) v ∧
        Vec3.norm (saturateVel (ctrlInit p yt) v) =
          min (min p.uMax p.vMax) p.wMax := by
      intro hgt
      have heq : saturateVel (ctrlInit p yt) v =
          Vec3.smul (min (min p.uMax p.vMax) p.wMax / Vec3.norm v) v := by
        rw [hred v, if_pos hgt]
      have hnpos : 0 < Vec3.norm v := lt_of_le_of_lt h0 hgt
      refine ⟨heq, ?_⟩
      rw [heq, norm3_smul,
        abs_of_nonneg (div_nonneg h0 hnpos.le),
        div_mul_cancel₀ _ (ne_of_gt hnpos)]
    refine ⟨hva, hscaled, ?_⟩
    by_cases hgt : Vec3.norm v > min (min p.uMax p.vMax) p.wMax
    · exact le_of_eq (hscaled hgt).2
    · rw [hred v, if_neg hgt]
      exact not_lt.mp hgt
  · intro hsep
    unfold saturateVel
    rw [show (ctrlInit p yt).saturateVel_separately = p.saturateVel_separately
      from rfl, hsep]
    rfl

/-- Witness for C4: the default configuration (global mode, limits all `5`)
scales the over-limit setpoint `(9, 12, 20)` (norm `25`) down to norm `5`. -/
theorem saturateVel_correct_witness :
    (ctrlInit defaultParams 3).velMaxAll = 5 ∧
    Vec3.norm (saturateVel (ctrlInit defaultParams 3) ⟨9, 12, 20⟩) ≤ 5 := by
  have h := saturateVel_correct defaultParams 3 ⟨9, 12, 20⟩ (by norm_num [defaultParams])
  have h2 := h.1 rfl
  refine ⟨by rw [h2.1]; norm_num [defaultParams], ?_⟩
  have := h2.2.2
  simpa [defaultParams] using this

/-! ## Claim C5: tilt/thrust-limited horizontal allocation -/

/-- Claim C5: in the XY velocity loop, the horizontal thrust bound is the
smaller of the remaining-thrust budget `sqrt(maxThr^2 - thrust_z^2)` and the
tilt bound `|thrust_z| * tan(tiltMax)`; when the unclamped horizontal thrust
vector's squared norm exceeds the squared bound the stored setpoint is the
unclamped vector rescaled to the bound (a nonnegative multiple, so the
direction is preserved, and the resulting norm equals the bound), otherwise
it is exactly the unclamped vector. -/
theorem xy_vel_control_allocation (cfg : Config) (qp : QuadParams)
    (vel_sp acc_sp vel vel_dot : Vec3) (thr_int_xy : Vec2) (thrust_sp_z : ℝ)
    (potfld : PotField) (Ts : ℝ) (t : Vec2) (b : ℝ)
    (ht : t = ⟨cfg.vel_P_gain.x * (vel_sp.x - vel.x) -
        cfg.vel_D_gain.x * vel_dot.x + qp.mB * acc_sp.x + thr_int_xy.x +
        potfld.pfSatFor * potfld.F_rep.x,
      cfg.vel_P_gain.y * (vel_sp.y - vel.y) -
        cfg.vel_D_gain.y * vel_dot.y + qp.mB * acc_sp.y + thr_int_xy.y +
        potfld.pfSatFor * potfld.F_rep.y⟩)
    (hb : b = min (Real.sqrt (qp.maxThr ^ 2 - thrust_sp_z ^ 2))
      (|thrust_sp_z| * Real.tan cfg.tiltMax)) :
    (Vec2.dot t t > b ^ 2 →
      (xy_vel_control cfg qp vel_sp acc_sp vel vel_dot thr_int_xy thrust_sp_z
          potfld Ts).1 = Vec2.smul (b / Vec2.norm t) t ∧
      (0 ≤ b →
        Vec2.norm (xy_vel_control cfg qp vel_sp acc_sp vel vel_dot thr_int_xy
          thrust_sp_z potfld Ts).1 = b)) ∧
    (¬ Vec2.dot t t > b ^ 2 →
      (xy_vel_control cfg qp vel_sp acc_sp vel vel_dot thr_int_xy thrust_sp_z
          potfld Ts).1 = t) := by
  subst ht hb
  constructor
  · intro h
    have heq : (xy_vel_control cfg qp vel_sp acc_sp vel vel_dot thr_int_xy
        thrust_sp_z potfld Ts).1 = Vec2.smul
          (min (Real.sqrt (qp.maxThr ^ 2 - thrust_sp_z ^ 2))
            (|thrust_sp_z| * Real.tan cfg.tiltMax) / Vec2.norm
            ⟨cfg.vel_P_gain.x * (vel_sp.x - vel.x) -
                cfg.vel_D_gain.x * vel_dot.x + qp.mB * acc_sp.x + thr_int_xy.x +
                potfld.pfSatFor * potfld.F_rep.x,
              cfg.vel_P_gain.y * (vel_sp.y - vel.y) -
                cfg.vel_D_gain.y * vel_dot.y + qp.mB * acc_sp.y + thr_int_xy.y +
                potfld.pfSatFor * potfld.F_rep.y⟩)
          ⟨cfg.vel_P_gain.x * (vel_sp.x - vel.x) -
              cfg.vel_D_gain.x * vel_dot.x + qp.mB * acc_sp.x + thr_int_xy.x +
              potfld.pfSatFor * potfld.F_rep.x,
            cfg.vel_P_gain.y * (vel_sp.y - vel.y) -
              cfg.vel_D_gain.y * vel_dot.y + qp.mB * acc_sp.y + thr_int_xy.y +
              potfld.pfSatFor * potfld.F_rep.y⟩ := by
      simp only [xy_vel_control]
      rw [if_pos h]
    refine ⟨heq, fun hbpos => ?_⟩
    have hdotpos : 0 < Vec2.dot
        (⟨cfg.vel_P_gain.x * (vel_sp.x - vel.x) -
            cfg.vel_D_gain.x * vel_dot.x + qp.mB * acc_sp.x + thr_int_xy.x +
            potfld.pfSatFor * potfld.F_rep.x,
          cfg.vel_P_gain.y * (vel_sp.y - vel.y) -
            cfg.vel_D_gain.y * vel_dot.y + qp.mB * acc_sp.y + thr_int_xy.y +
            potfld.pfSatFor * potfld.F_rep.y⟩ : Vec2)
        ⟨cfg.vel_P_gain.x * (vel_sp.x - vel.x) -
            cfg.vel_D_gain.x * vel_dot.x + qp.mB * acc_sp.x + thr_int_xy.x +
            potfld.pfSatFor * potfld.F_rep.x,
          cfg.vel_P_gain.y * (vel_sp.y - vel.y) -
            cfg.vel_D_gain.y * vel_dot.y + qp.mB * acc_sp.y + thr_int_xy.y +
            potfld.pfSatFor * potfld.F_rep.y⟩ :=
      lt_of_le_of_lt (sq_nonneg _) h
    have hnpos := norm2_pos_of_dot_pos hdotpos
    rw [heq, norm2_smul, abs_of_nonneg (div_nonneg hbpos hnpos.le),
      div_mul_cancel₀ _ (ne_of_gt hnpos)]
  · intro h
    simp only [xy_vel_control]
    rw [if_neg h]

/-- Witness for C5: a saturated allocation with bound `0` (vertical thrust
setpoint `0` and thrust ceiling `1`); the stored horizontal setpoint is
rescaled to norm `0`. -/
theorem xy_vel_control_allocation_witness :
    Vec2.norm (xy_vel_control cfgD qpC ⟨1, 0, 0⟩ Vec3.zero Vec3.zero Vec3.zero
      ⟨0, 0⟩ 0 pfZero 1).1 = 0 := by
  have ht : (⟨5, 0⟩ : Vec2) = ⟨cfgD.vel_P_gain.x * ((⟨1, 0, 0⟩ : Vec3).x - Vec3.zero.x) -
      cfgD.vel_D_gain.x * Vec3.zero.x + qpC.mB * Vec3.zero.x + (⟨0, 0⟩ : Vec2).x +
      pfZero.pfSatFor * pfZero.F_rep.x,
    cfgD.vel_P_gain.y * ((⟨1, 0, 0⟩ : Vec3).y - Vec3.zero.y) -
      cfgD.vel_D_gain.y * Vec3.zero.y + qpC.mB * Vec3.zero.y + (⟨0, 0⟩ : Vec2).y +
      pfZero.pfSatFor * pfZero.F_rep.y⟩ := by
    refine Vec2.ext ?_ ?_ <;>
      norm_num [cfgD, ctrlInit, defaultParams, setYawWeight, qpC, pfZero, Vec3.zero]
  have hb : (0 : ℝ) = min (Real.sqrt (qpC.maxThr ^ 2 - (0 : ℝ) ^ 2))
      (|(0 : ℝ)| * Real.tan cfgD.tiltMax) := by
    norm_num [qpC, Real.sqrt_one, min_eq_right, zero_le_one]
  have h := xy_vel_control_allocation cfgD qpC ⟨1, 0, 0⟩ Vec3.zero Vec3.zero
    Vec3.zero ⟨0, 0⟩ 0 pfZero 1 ⟨5, 0⟩ 0 ht hb
  exact (h.1 (by norm_num [Vec2.dot])).2 le_rfl

/-! ## Claim C9: yaw-weight computation and the overwritten yaw gain -/

/-- Claim C9: at construction, `setYawWeight` first computes
`yaw_w = clip(att_P_gain[2] / avg(att_P_gain[0], att_P_gain[1]), 0, 1)` and
then overwrites the stored yaw attitude P gain with the roll/pitch average,
so the attitude stage's yaw body-rate term is scaled by the average gain and
the configured `Ppsi` acts only through `yaw_w`; `yawType = 0` zeroes the
yaw gain before the weight is formed, forcing `yaw_w = 0`. -/
theorem ctrlInit_yaw_weight (p : Params) (yt : ℤ)
    (hroll : 0 < p.Pphi + p.Ptheta) :
    (ctrlInit p yt).att_P_gain.z = 0.5 * (p.Pphi + p.Ptheta) ∧
    (yt ≠ 0 → (ctrlInit p yt).yaw_w =
      np_clip (p.Ppsi / (0.5 * (p.Pphi + p.Ptheta))) 0 1) ∧
    (yt = 0 → (ctrlInit p yt).yaw_w = 0) ∧
    (∀ (orient : Orient) (quat : Quaternion ℝ) (dcm : Mat3)
        (thrust_rep_sp : Vec3) (qd_full : Quaternion ℝ) (yawFF : ℝ),
      (attitude_control orient (ctrlInit p yt) quat dcm thrust_rep_sp qd_full
          yawFF).rate_sp.z =
        np_clip
          (2 * np_sign (attitude_control orient (ctrlInit p yt) quat dcm
              thrust_rep_sp qd_full yawFF).qe.re *
            (attitude_control orient (ctrlInit p yt) quat dcm thrust_rep_sp
              qd_full yawFF).qe.imK * (0.5 * (p.Pphi + p.Ptheta)) +
            (attitude_control orient (ctrlInit p yt) quat dcm thrust_rep_sp
              qd_full yawFF).yawFF * (quat2Dcm (quatInverse quat)).c3.z)
          (-(ctrlInit p yt).rateMax.z) (ctrlInit p yt).rateMax.z) := by
  have hz : (ctrlInit p yt).att_P_gain.z = 0.5 * (p.Pphi + p.Ptheta) := by
    unfold ctrlInit setYawWeight
    by_cases h : yt = 0 <;> simp [h]
  refine ⟨hz, fun hne => ?_, fun h0 => ?_, fun orient quat dcm trep qdf yawFF => ?_⟩
  · unfold ctrlInit setYawWeight
    simp [hne]
  · unfold ctrlInit setYawWeight
    simp [h0, np_clip]
  · simp only [attitude_control, clip3, Vec3.add, Vec3.hmul, Vec3.smul]
    rw [hz]

/-- Witness for C9: with the default gains and follow mode the stored yaw
attitude gain becomes `8` and the yaw weight `1.5 / 8 = 0.1875`. -/
theorem ctrlInit_yaw_weight_witness :
    (ctrlInit defaultParams 3).att_P_gain.z = 8 ∧
    (ctrlInit defaultParams 3).yaw_w = 0.1875 := by
  have h := ctrlInit_yaw_weight defaultParams 3 (by norm_num [defaultParams])
  refine ⟨by rw [h.1]; norm_num [defaultParams], ?_⟩
  rw [h.2.1 (by norm_num)]
  norm_num [defaultParams, np_clip]

/-! ## Claim C6: yaw unwrap at `current_heading = 3.0`, new yaw `-3.1` -/

theorem yaw_follow_at_wrap (e0 y0 Ts : ℝ) :
    yaw_follow 4 0 ⟨Real.cos (-3.1), Real.sin (-3.1), 0⟩ e0 y0 3 Ts =
      (-3.1, (-3.1 - 3) / Ts, -3.1) := by
  have hnorm : Vec3.norm ⟨Real.cos (-3.1), Real.sin (-3.1), 0⟩ = 1 := by
    unfold Vec3.norm Vec3.dot
    rw [show Real.cos (-3.1) * Real.cos (-3.1) + Real.sin (-3.1) * Real.sin (-3.1) +
      0 * 0 = Real.sin (-3.1) ^ 2 + Real.cos (-3.1) ^ 2 by ring,
      Real.sin_sq_add_cos_sq, Real.sqrt_one]
  have hyaw : np_arctan2 (Real.sin (-3.1)) (Real.cos (-3.1)) = -3.1 := by
    unfold np_arctan2
    rw [show (⟨Real.cos (-3.1), Real.sin (-3.1)⟩ : ℂ) =
        Complex.cos ((-3.1 : ℝ) : ℂ) + Complex.sin ((-3.1 : ℝ) : ℂ) * Complex.I by
      rw [Complex.mk_eq_add_mul_I, Complex.ofReal_cos, Complex.ofReal_sin]]
    exact Complex.arg_cos_add_sin_mul_I
      ⟨by have := Real.pi_gt_d2; linarith, by have := Real.pi_gt_d2; linarith⟩
  simp only [yaw_follow]
  rw [if_pos (⟨trivial, trivial⟩ : True ∧ True), hnorm,
    if_pos (by norm_num : (1 : ℝ) > 0.1), hyaw,
    if_neg (fun hc => by
      have habs := hc.2
      rw [show |(-3.1 : ℝ) - 3| = 6.1 by rw [abs_of_nonpos] <;> norm_num] at habs
      have := Real.pi_gt_d2
      linarith)]

/-- Counterexample to C6: with `current_heading = 3.0`, a computed yaw of
`-3.1` (velocity setpoint `(cos(-3.1), sin(-3.1), 0)`, magnitude `1`) and
`Ts = 1`, the absolute difference `6.1` is smaller than `2*pi - 0.1`, so the
unwrap branch does not fire: `yawFF = -6.1`, not the claimed
`-3.1 - (3.0 - 2*pi)`. -/
theorem claim_C6_counterexample :
    (yaw_follow 4 0 ⟨Real.cos (-3.1), Real.sin (-3.1), 0⟩ 0 0 3 1).2.1 = -6.1 ∧
    (yaw_follow 4 0 ⟨Real.cos (-3.1), Real.sin (-3.1), 0⟩ 0 0 3 1).2.1 ≠
      (-3.1 - (3 - 2 * Real.pi)) / 1 := by
  rw [yaw_follow_at_wrap]
  norm_num
  intro hcontra
  have := Real.pi_gt_d2
  linarith

/-- Claim C6, amended: with `current_heading = 3.0` and a newly computed yaw
of `-3.1` (velocity-setpoint magnitude above the dead-band), the absolute
difference `6.1` is below the unwrap threshold `2*pi - 0.1`, so the heading
generator leaves `current_heading` alone for the differencing step:
`yawFF = (-3.1 - 3.0) / Ts`, and the stored heading becomes `-3.1`. -/
theorem yaw_follow_no_unwrap_at_3 (e0 y0 Ts : ℝ) :
    (yaw_follow 4 0 ⟨Real.cos (-3.1), Real.sin (-3.1), 0⟩ e0 y0 3 Ts).1 = -3.1 ∧
    (yaw_follow 4 0 ⟨Real.cos (-3.1), Real.sin (-3.1), 0⟩ e0 y0 3 Ts).2.1 =
      (-3.1 - 3) / Ts ∧
    (yaw_follow 4 0 ⟨Real.cos (-3.1), Real.sin (-3.1), 0⟩ e0 y0 3 Ts).2.2 = -3.1 := by
  rw [yaw_follow_at_wrap]
  exact ⟨rfl, rfl, rfl⟩

/-! ## Claim C8: zero potential-field gains disable the coupling -/

theorem addFrepToVel_pf (v : Vec3) (F : Vec3) (g1 g2 g3 : ℝ) :
    addFrepToVel ⟨F, 0, 0, 0⟩ v = addFrepToVel ⟨Vec3.zero, g1, g2, g3⟩ v := by
  simp only [addFrepToVel, Vec3.add, Vec3.smul, Vec3.zero, mul_zero, zero_mul]

theorem z_vel_control_pf (orient : Orient) (cfg : Config) (qp : QuadParams)
    (vel_sp acc_sp vel vel_dot : Vec3) (ti Ts : ℝ) (F : Vec3) (g1 g2 g3 : ℝ) :
    z_vel_control orient cfg qp vel_sp acc_sp vel vel_dot ti ⟨F, 0, 0, 0⟩ Ts =
      z_vel_control orient cfg qp vel_sp acc_sp vel vel_dot ti
        ⟨Vec3.zero, g1, g2, g3⟩ Ts := by
  simp only [z_vel_control, Vec3.zero, mul_zero, zero_mul]

theorem xy_vel_control_pf (cfg : Config) (qp : QuadParams)
    (vel_sp acc_sp vel vel_dot : Vec3) (ti : Vec2) (tz Ts : ℝ) (F : Vec3)
    (g1 g2 g3 : ℝ) :
    xy_vel_control cfg qp vel_sp acc_sp vel vel_dot ti tz ⟨F, 0, 0, 0⟩ Ts =
      xy_vel_control cfg qp vel_sp acc_sp vel vel_dot ti tz
        ⟨Vec3.zero, g1, g2, g3⟩ Ts := by
  simp only [xy_vel_control, Vec3.zero, mul_zero, zero_mul]

theorem thrustToAttitude_pf (orient : Orient) (thrust_sp : Vec3) (yaw_sp : ℝ)
    (F : Vec3) (g1 g2 g3 : ℝ) :
    thrustToAttitude orient ⟨F, 0, 0, 0⟩ thrust_sp yaw_sp =
      thrustToAttitude orient ⟨Vec3.zero, g1, g2, g3⟩ thrust_sp yaw_sp := by
  simp only [thrustToAttitude, Vec3.add, Vec3.smul, Vec3.zero, mul_zero,
    zero_mul, add_zero]

theorem cascadeCore_pf (orient : Orient) (cfg : Config) (qs : QuadState)
    (qp : QuadParams) (Ts : ℝ) (vel_sp acc_sp : Vec3) (eul_sp_z yawFF : ℝ)
    (thr_int : Vec3) (F : Vec3) (g1 g2 g3 : ℝ) :
    cascadeCore orient cfg qs qp ⟨F, 0, 0, 0⟩ Ts vel_sp acc_sp eul_sp_z yawFF
        thr_int =
      cascadeCore orient cfg qs qp ⟨Vec3.zero, g1, g2, g3⟩ Ts vel_sp acc_sp
        eul_sp_z yawFF thr_int := by
  simp only [cascadeCore]
  rw [z_vel_control_pf orient cfg qp vel_sp acc_sp qs.vel qs.vel_dot thr_int.z
      Ts F g1 g2 g3,
    xy_vel_control_pf cfg qp vel_sp acc_sp qs.vel qs.vel_dot
      ⟨thr_int.x, thr_int.y⟩ _ Ts F g1 g2 g3,
    thrustToAttitude_pf orient _ eul_sp_z F g1 g2 g3]

/-- Claim C8: a controller tick whose three potential-field coupling gains
are all zero produces exactly the same controller state, heading and outputs
(mixer arguments and `sDesCalc` included) as a tick fed the same inputs with
an identically-zero repulsive force, for every mode, vehicle state and
sample time. -/
theorem controllerTick_pf_zero (orient : Orient) (cfg : Config) (traj : TrajIn)
    (qs : QuadState) (qp : QuadParams) (Ts : ℝ) (st : CtrlState) (F : Vec3)
    (g1 g2 g3 : ℝ) :
    controllerTick orient cfg traj qs qp ⟨F, 0, 0, 0⟩ Ts st =
      controllerTick orient cfg traj qs qp ⟨Vec3.zero, g1, g2, g3⟩ Ts st := by
  simp only [controllerTick]
  split_ifs with h1 h2 h3
  · rw [cascadeCore_pf orient cfg qs qp Ts _ _ _ _ _ F g1 g2 g3]
  · rw [cascadeCore_pf orient cfg qs qp Ts _ _ _ _ _ F g1 g2 g3]
  · rw [addFrepToVel_pf _ F g1 g2 g3,
      cascadeCore_pf orient cfg qs qp Ts _ _ _ _ _ F g1 g2 g3]
  · rfl

/-! ## Claim C10: unrecognized control-mode tags -/

/-- Claim C10: with a control-mode tag other than the three recognized
strings, a tick runs no cascade stage, yet still reaches the external-mixer
call and the 16-slot logging writes; on a freshly constructed controller the
never-assigned rate-control output is read first, so the tick fails with an
undefined-attribute error (modelled as `none`) instead of rejecting the
mode.  On a controller whose derived attributes exist (for instance after a
recognized tick), the unrecognized mode silently reuses the stale values:
the mixer is called with the stale repulsion-augmented thrust magnitude and
rate demand, and `sDesCalc` mixes fresh setpoints with stale outputs. -/
theorem controllerTick_unknown_mode (orient : Orient) (cfg : Config)
    (traj : TrajIn) (qs : QuadState) (qp : QuadParams) (potfld : PotField)
    (Ts : ℝ) (hm1 : traj.ctrlType ≠ "xyz_vel")
    (hm2 : traj.ctrlType ≠ "xy_vel_z_pos") (hm3 : traj.ctrlType ≠ "xyz_pos") :
    controllerTick orient cfg traj qs qp potfld Ts initState = none ∧
    (∀ (st : CtrlState) (rc rsp : Vec3) (qdv : Quaternion ℝ),
      st.rateCtrl = some rc → st.qd = some qdv → st.rate_sp = some rsp →
      controllerTick orient cfg traj qs qp potfld Ts st =
        some ({ st with
          pos_sp := traj.sDes_pos
          vel_sp := traj.sDes_vel
          acc_sp := traj.sDes_acc
          thrust_sp := traj.sDes_thrust
          eul_sp := traj.sDes_eul
          pqr_sp := traj.sDes_pqr
          yawFF := traj.sDes_yawFF
          sDesCalc := ⟨traj.sDes_pos, traj.sDes_vel, traj.sDes_thrust, qdv, rsp⟩
          mixerArgs := some (Vec3.norm st.thrust_rep_sp, rc) },
          traj.current_heading)) := by
  constructor
  · simp only [controllerTick]
    rw [if_neg hm1, if_neg hm2, if_neg hm3]
    simp [initState]
  · intro st rc rsp qdv hrc hqd hrsp
    simp only [controllerTick]
    rw [if_neg hm1, if_neg hm2, if_neg hm3, hrc, hqd, hrsp]
    rfl

/-- Witness for C10: the first tick of a fresh controller with the tag
`"bogus"` fails by reading the never-assigned `rateCtrl`. -/
theorem controllerTick_unknown_mode_witness :
    controllerTick Orient.NED cfgD trajX qsD qpD pfZero 1 initState = none :=
  (controllerTick_unknown_mode Orient.NED cfgD trajX qsD qpD pfZero 1
    (by decide) (by decide) (by decide)).1

/-! ## Quaternion component lemmas -/

theorem mkQ_re (a b c d : ℝ) : (mkQ a b c d).re = a := rfl

theorem mkQ_imI (a b c d : ℝ) : (mkQ a b c d).imI = b := rfl

theorem mkQ_imJ (a b c d : ℝ) : (mkQ a b c d).imJ = c := rfl

theorem mkQ_imK (a b c d : ℝ) : (mkQ a b c d).imK = d := rfl

theorem pureQ_re (v : Vec3) : (pureQ v).re = 0 := rfl

theorem pureQ_imI (v : Vec3) : (pureQ v).imI = v.x := rfl

theorem pureQ_imJ (v : Vec3) : (pureQ v).imJ = v.y := rfl

theorem pureQ_imK (v : Vec3) : (pureQ v).imK = v.z := rfl

theorem pure_mul_pure (a b : Vec3) :
    pureQ a * pureQ b = mkQ (-Vec3.dot a b) (Vec3.cross a b).x
      (Vec3.cross a b).y (Vec3.cross a b).z := by
  apply Quaternion.ext <;>
    simp only [Quaternion.mul_re, Quaternion.mul_imI, Quaternion.mul_imJ,
      Quaternion.mul_imK, mkQ_re, mkQ_imI, mkQ_imJ, mkQ_imK, pureQ_re,
      pureQ_imI, pureQ_imJ, pureQ_imK, Vec3.dot, Vec3.cross] <;> ring

theorem star_pureQ (v : Vec3) : star (pureQ v) = -pureQ v := by
  apply Quaternion.ext <;>
    simp [pureQ, mkQ]

theorem normSq_pureQ (v : Vec3) :
    Quaternion.normSq (pureQ v) = Vec3.dot v v := by
  rw [Quaternion.normSq_def']
  simp only [pureQ_re, pureQ_imI, pureQ_imJ, pureQ_imK, Vec3.dot]
  ring

theorem normSq_mkQ (a b c d : ℝ) :
    Quaternion.normSq (mkQ a b c d) = a ^ 2 + b ^ 2 + c ^ 2 + d ^ 2 := by
  rw [Quaternion.normSq_def']
  rfl

theorem lagrange_cross (a b : Vec3) :
    Vec3.dot (Vec3.cross a b) (Vec3.cross a b) =
      Vec3.dot a a * Vec3.dot b b - Vec3.dot a b ^ 2 := by
  simp only [Vec3.dot, Vec3.cross]
  ring

/-! ## The alignment quaternion rotates `a` onto `b` -/

theorem rawAlign_mul_left (a b : Vec3) :
    rawAlign a b * pureQ a = pureQ a + Vec3.dot a a • pureQ b := by
  apply Quaternion.ext <;>
    simp only [Quaternion.mul_re, Quaternion.mul_imI, Quaternion.mul_imJ,
      Quaternion.mul_imK, Quaternion.add_re, Quaternion.add_imI,
      Quaternion.add_imJ, Quaternion.add_imK, Quaternion.smul_re,
      Quaternion.smul_imI, Quaternion.smul_imJ, Quaternion.smul_imK,
      rawAlign, mkQ_re, mkQ_imI, mkQ_imJ, mkQ_imK, pureQ_re, pureQ_imI,
      pureQ_imJ, pureQ_imK, Vec3.dot, Vec3.cross, smul_eq_mul] <;> ring

theorem rawAlign_mul_right (a b : Vec3) :
    pureQ b * rawAlign a b = pureQ b + Vec3.dot b b • pureQ a := by
  apply Quaternion.ext <;>
    simp only [Quaternion.mul_re, Quaternion.mul_imI, Quaternion.mul_imJ,
      Quaternion.mul_imK, Quaternion.add_re, Quaternion.add_imI,
      Quaternion.add_imJ, Quaternion.add_imK, Quaternion.smul_re,
      Quaternion.smul_imI, Quaternion.smul_imJ, Quaternion.smul_imK,
      rawAlign, mkQ_re, mkQ_imI, mkQ_imJ, mkQ_imK, pureQ_re, pureQ_imI,
      pureQ_imJ, pureQ_imK, Vec3.dot, Vec3.cross, smul_eq_mul] <;> ring

theorem rawAlign_rot (a b : Vec3) (ha : Vec3.dot a a = 1)
    (hb : Vec3.dot b b = 1) :
    rawAlign a b * pureQ a * star (rawAlign a b) =
      Quaternion.normSq (rawAlign a b) • pureQ b := by
  have h : rawAlign a b * pureQ a = pureQ b * rawAlign a b := by
    rw [rawAlign_mul_left, rawAlign_mul_right, ha, hb, one_smul, one_smul,
      add_comm]
  rw [h, mul_assoc, Quaternion.self_mul_star, Quaternion.mul_coe_eq_smul]

theorem normSq_rawAlign (a b : Vec3) (ha : Vec3.dot a a = 1)
    (hb : Vec3.dot b b = 1) :
    Quaternion.normSq (rawAlign a b) = 2 * (1 + Vec3.dot a b) := by
  have hl := lagrange_cross a b
  rw [ha, hb] at hl
  unfold rawAlign
  rw [normSq_mkQ]
  have hx : (Vec3.cross a b).x ^ 2 + (Vec3.cross a b).y ^ 2 +
      (Vec3.cross a b).z ^ 2 = 1 * 1 - Vec3.dot a b ^ 2 := by
    rw [← hl]
    simp only [Vec3.dot]
    ring
  nlinarith [hx]

/-! ## The frame quaternion represents the rotation with columns `x, y, z` -/

theorem Qframe_mul_e3_exact (x y : Vec3) :
    Qframe x y (Vec3.cross x y) * pureQ e3v -
        pureQ (Vec3.cross x y) * Qframe x y (Vec3.cross x y) =
      (1 - Vec3.dot x x * Vec3.dot y y + Vec3.dot x y ^ 2) • pureQ e3v +
        (1 - Vec3.dot y y) • (pureQ x * pureQ e2v) -
        (1 - Vec3.dot x x) • (pureQ y * pureQ e1v) -
        Vec3.dot x y • (pureQ x * pureQ e1v) +
        Vec3.dot x y • (pureQ y * pureQ e2v) := by
  apply Quaternion.ext <;>
    simp only [Quaternion.mul_re, Quaternion.mul_imI, Quaternion.mul_imJ,
      Quaternion.mul_imK, Quaternion.add_re, Quaternion.add_imI,
      Quaternion.add_imJ, Quaternion.add_imK, Quaternion.sub_re,
      Quaternion.sub_imI, Quaternion.sub_imJ, Quaternion.sub_imK,
      Quaternion.smul_re, Quaternion.smul_imI, Quaternion.smul_imJ,
      Quaternion.smul_imK, Qframe, mkQ_re, mkQ_imI, mkQ_imJ, mkQ_imK,
      pureQ_re, pureQ_imI, pureQ_imJ, pureQ_imK, Vec3.dot, Vec3.cross,
      e1v, e2v, e3v, smul_eq_mul] <;> ring

theorem Qframe_mul_e3 (x y z : Vec3) (hx : Vec3.dot x x = 1)
    (hy : Vec3.dot y y = 1) (hxy : Vec3.dot x y = 0)
    (hz : z = Vec3.cross x y) :
    Qframe x y z * pureQ e3v = pureQ z * Qframe x y z := by
  subst hz
  have h := Qframe_mul_e3_exact x y
  rw [hx, hy, hxy] at h
  simp only [one_mul, sub_self, zero_smul, ne_eq, OfNat.ofNat_ne_zero,
    not_false_eq_true, zero_pow, add_zero, sub_zero, zero_add] at h
  rw [sub_eq_zero] at h
  · exact h

theorem Qframe_rot (x y z : Vec3) (hx : Vec3.dot x x = 1)
    (hy : Vec3.dot y y = 1) (hxy : Vec3.dot x y = 0)
    (hz : z = Vec3.cross x y) :
    Qframe x y z * pureQ e3v * star (Qframe x y z) =
      Quaternion.normSq (Qframe x y z) • pureQ z := by
  rw [Qframe_mul_e3 x y z hx hy hxy hz, mul_assoc, Quaternion.self_mul_star,
    Quaternion.mul_coe_eq_smul]

/-! ## Normalisation lemmas -/

theorem normSq_quatNormalize {q : Quaternion ℝ} (h : q ≠ 0) :
    Quaternion.normSq (quatNormalize q) = 1 := by
  unfold quatNormalize
  rw [Quaternion.normSq_smul]
  have hpos : 0 < Quaternion.normSq q :=
    lt_of_le_of_ne (Quaternion.normSq_nonneg) (Ne.symm (Quaternion.normSq_ne_zero.mpr h))
  rw [inv_pow, Real.sq_sqrt hpos.le, inv_mul_cancel₀ (ne_of_gt hpos)]

theorem quatNormalize_smul {c : ℝ} (hc : 0 < c) (q : Quaternion ℝ) :
    quatNormalize (c • q) = quatNormalize q := by
  unfold quatNormalize
  rw [Quaternion.normSq_smul, Real.sqrt_mul (sq_nonneg c), Real.sqrt_sq hc.le,
    smul_smul, mul_inv_rev, mul_assoc, inv_mul_cancel₀ (ne_of_gt hc), mul_one]

theorem quatNormalize_rot (q : Quaternion ℝ) (v : Vec3) :
    quatNormalize q * pureQ v * star (quatNormalize q) =
      ((Real.sqrt (Quaternion.normSq q))⁻¹ ^ 2) • (q * pureQ v * star q) := by
  unfold quatNormalize
  rw [Quaternion.star_smul, smul_mul_assoc, smul_mul_assoc, mul_smul_comm,
    smul_smul, sq]

/-! ## The DCM column and rotation by a quaternion -/

theorem quat_rot_e3 (q : Quaternion ℝ) :
    q * pureQ e3v * star q = pureQ ((quat2Dcm q).c3) := by
  apply Quaternion.ext <;>
    simp only [Quaternion.mul_re, Quaternion.mul_imI, Quaternion.mul_imJ,
      Quaternion.mul_imK, Quaternion.star_re, Quaternion.star_imI,
      Quaternion.star_imJ, Quaternion.star_imK, quat2Dcm, pureQ_re, pureQ_imI,
      pureQ_imJ, pureQ_imK, e3v] <;> ring

theorem dot_quat2Dcm_c3 (q : Quaternion ℝ) :
    Vec3.dot (quat2Dcm q).c3 (quat2Dcm q).c3 = Quaternion.normSq q ^ 2 := by
  rw [Quaternion.normSq_def']
  simp only [quat2Dcm, Vec3.dot]
  ring

theorem quatInverse_unit {q : Quaternion ℝ} (h : Quaternion.normSq q = 1) :
    quatInverse q = star q := by
  unfold quatInverse
  rw [h, inv_one, one_smul]

theorem normSq_star_unit {q : Quaternion ℝ} (h : Quaternion.normSq q = 1) :
    Quaternion.normSq (star q) = 1 := by
  rw [Quaternion.normSq_star, h]

theorem normSq_mul (p q : Quaternion ℝ) :
    Quaternion.normSq (p * q) = Quaternion.normSq p * Quaternion.normSq q :=
  map_mul Quaternion.normSq p q

/-! ## Helper lemmas for the hover scenario -/

theorem mkQ_one : mkQ 1 0 0 0 = 1 := by
  apply Quaternion.ext <;> simp [mkQ]

theorem quatNormalize_of_unit {q : Quaternion ℝ}
    (h : Quaternion.normSq q = 1) : quatNormalize q = q := by
  unfold quatNormalize
  rw [h, Real.sqrt_one, inv_one, one_smul]

theorem normSq_qpsi (psi : ℝ) : Quaternion.normSq (qpsi psi) = 1 := by
  unfold qpsi
  rw [normSq_mkQ]
  have := Real.sin_sq_add_cos_sq (psi / 2)
  linarith

theorem dcm_qpsi_c3 (psi : ℝ) : (quat2Dcm (qpsi psi)).c3 = ⟨0, 0, 1⟩ := by
  unfold quat2Dcm qpsi
  refine Vec3.ext ?_ ?_ ?_ <;>
    simp only [mkQ_re, mkQ_imI, mkQ_imJ, mkQ_imK]
  · ring
  · ring
  · have := Real.sin_sq_add_cos_sq (psi / 2)
    linarith

theorem vectNormalize_down {c : ℝ} (hc : 0 < c) :
    vectNormalize ⟨0, 0, -c⟩ = ⟨0, 0, -1⟩ := by
  unfold vectNormalize Vec3.norm Vec3.dot
  have hnorm : Real.sqrt ((0 : ℝ) * 0 + 0 * 0 + -c * -c) = c := by
    rw [show (0 : ℝ) * 0 + 0 * 0 + -c * -c = c ^ 2 by ring, Real.sqrt_sq hc.le]
  rw [hnorm]
  refine Vec3.ext ?_ ?_ ?_ <;> simp [Vec3.smul]
  rw [inv_mul_cancel₀ (ne_of_gt hc)]

theorem hover_z_vel (qp : QuadParams) (Ts : ℝ)
    (hlo : qp.minThr < qp.mB * qp.g) (hhi : qp.mB * qp.g < qp.maxThr) :
    z_vel_control Orient.NED cfgD qp Vec3.zero Vec3.zero Vec3.zero Vec3.zero
      0 pfZero Ts = (0, -(qp.mB * qp.g)) := by
  simp only [z_vel_control, Vec3.zero, pfZero, np_sign, np_clip]
  norm_num
  rw [max_eq_left (by linarith), min_eq_left (by linarith)]

theorem hover_xy_vel (qp : QuadParams) (Ts tz : ℝ) :
    xy_vel_control cfgD qp Vec3.zero Vec3.zero Vec3.zero Vec3.zero
      ⟨0, 0⟩ tz pfZero Ts = (⟨0, 0⟩, ⟨0, 0⟩) := by
  simp only [xy_vel_control, Vec3.zero, pfZero, Vec2.dot, Vec2.sub, Vec2.add,
    Vec2.smul, Vec2.hmul, Vec2.norm]
  norm_num

theorem cos_half_pos {psi : ℝ} (h : |psi| < Real.pi) :
    0 < Real.cos (psi / 2) := by
  rw [abs_lt] at h
  apply Real.cos_pos_of_mem_Ioo
  constructor <;> [linarith; linarith]

theorem RotToQuat_yaw (psi : ℝ) (h : |psi| < Real.pi) :
    RotToQuat ⟨⟨Real.cos psi, Real.sin psi, 0⟩,
      ⟨-Real.sin psi, Real.cos psi, 0⟩, ⟨0, 0, 1⟩⟩ = qpsi psi := by
  have hc := cos_half_pos h
  have hcos : Real.cos psi = 2 * Real.cos (psi / 2) ^ 2 - 1 := by
    have h2 := Real.cos_two_mul (psi / 2)
    rw [show 2 * (psi / 2) = psi by ring] at h2
    exact h2
  have hsin : Real.sin psi = 2 * Real.sin (psi / 2) * Real.cos (psi / 2) := by
    have h2 := Real.sin_two_mul (psi / 2)
    rw [show 2 * (psi / 2) = psi by ring] at h2
    exact h2
  have hsqrt : Real.sqrt (1 + (Real.cos psi + Real.cos psi + 1)) =
      2 * Real.cos (psi / 2) := by
    rw [show 1 + (Real.cos psi + Real.cos psi + 1) =
      (2 * Real.cos (psi / 2)) ^ 2 by rw [hcos]; ring]
    exact Real.sqrt_sq (by linarith)
  simp only [RotToQuat]
  rw [hsqrt]
  have hmk : mkQ (0.5 * (2 * Real.cos (psi / 2))) ((0 - 0) * (0.25 / (0.5 * (2 * Real.cos (psi / 2)))))
      ((0 - 0) * (0.25 / (0.5 * (2 * Real.cos (psi / 2)))))
      ((Real.sin psi - -Real.sin psi) * (0.25 / (0.5 * (2 * Real.cos (psi / 2))))) = qpsi psi := by
    unfold qpsi
    apply Quaternion.ext <;>
      simp only [mkQ_re, mkQ_imI, mkQ_imJ, mkQ_imK]
    · ring
    · ring
    · ring
    · rw [hsin]
      field_simp
      ring
  rw [hmk, quatNormalize_of_unit (normSq_qpsi psi)]

theorem vectNormalize_unit {v : Vec3} (h : Vec3.dot v v = 1) :
    vectNormalize v = v := by
  unfold vectNormalize Vec3.norm
  rw [h, Real.sqrt_one, inv_one]
  refine Vec3.ext ?_ ?_ ?_ <;> simp [Vec3.smul]

theorem hover_tta (mg psi : ℝ) (hmg : 0 < mg) (hpsi : |psi| < Real.pi) :
    thrustToAttitude Orient.NED pfZero ⟨0, 0, -mg⟩ psi =
      (⟨0, 0, -mg⟩, qpsi psi) := by
  have htrep : Vec3.add ⟨0, 0, -mg⟩ (Vec3.smul pfZero.pfFor pfZero.F_rep) =
      ⟨0, 0, -mg⟩ := by
    refine Vec3.ext ?_ ?_ ?_ <;> simp [Vec3.add, Vec3.smul, pfZero, Vec3.zero]
  have hbz : Vec3.smul (-1) (⟨0, 0, -1⟩ : Vec3) = ⟨0, 0, 1⟩ := by
    refine Vec3.ext ?_ ?_ ?_ <;> simp [Vec3.smul]
  have hcross1 : Vec3.cross ⟨-Real.sin psi, Real.cos psi, 0⟩ ⟨0, 0, 1⟩ =
      ⟨Real.cos psi, Real.sin psi, 0⟩ := by
    refine Vec3.ext ?_ ?_ ?_ <;> simp [Vec3.cross]
  have hunit : Vec3.dot (⟨Real.cos psi, Real.sin psi, 0⟩ : Vec3)
      ⟨Real.cos psi, Real.sin psi, 0⟩ = 1 := by
    simp only [Vec3.dot]
    have := Real.sin_sq_add_cos_sq psi
    nlinarith
  have hcross2 : Vec3.cross ⟨0, 0, 1⟩ ⟨Real.cos psi, Real.sin psi, 0⟩ =
      ⟨-Real.sin psi, Real.cos psi, 0⟩ := by
    refine Vec3.ext ?_ ?_ ?_ <;> simp [Vec3.cross]
  simp only [thrustToAttitude]
  rw [htrep, vectNormalize_down hmg, hbz, hcross1, vectNormalize_unit hunit,
    hcross2, RotToQuat_yaw psi hpsi]

theorem quatNormalize_two : quatNormalize (mkQ 2 0 0 0) = 1 := by
  rw [show mkQ 2 0 0 0 = (2 : ℝ) • mkQ 1 0 0 0 by
      apply Quaternion.ext <;> simp [mkQ],
    quatNormalize_smul two_pos, mkQ_one,
    quatNormalize_of_unit (map_one Quaternion.normSq)]

theorem hover_att (mg psi : ℝ) (hmg : 0 < mg) :
    attitude_control Orient.NED cfgD (qpsi psi) (quat2Dcm (qpsi psi))
      ⟨0, 0, -mg⟩ (qpsi psi) 0 =
      ⟨qpsi psi, qpsi psi, 1, Vec3.zero, 0⟩ := by
  have hbz : Vec3.smul (-1) (⟨0, 0, -1⟩ : Vec3) = ⟨0, 0, 1⟩ := by
    refine Vec3.ext ?_ ?_ ?_ <;> simp [Vec3.smul]
  have hd : Vec3.dot (⟨0, 0, 1⟩ : Vec3) ⟨0, 0, 1⟩ = 1 := by
    norm_num [Vec3.dot]
  have hc : Vec3.cross (⟨0, 0, 1⟩ : Vec3) ⟨0, 0, 1⟩ = ⟨0, 0, 0⟩ := by
    refine Vec3.ext ?_ ?_ ?_ <;> norm_num [Vec3.cross]
  have hn : Vec3.norm (⟨0, 0, 1⟩ : Vec3) = 1 := by
    unfold Vec3.norm
    rw [hd, Real.sqrt_one]
  have hraw : mkQ (Vec3.dot ⟨0, 0, 1⟩ ⟨0, 0, 1⟩ +
      Real.sqrt (Vec3.norm ⟨0, 0, 1⟩ ^ 2 * Vec3.norm ⟨0, 0, 1⟩ ^ 2))
      (Vec3.cross ⟨0, 0, 1⟩ ⟨0, 0, 1⟩).x (Vec3.cross ⟨0, 0, 1⟩ ⟨0, 0, 1⟩).y
      (Vec3.cross ⟨0, 0, 1⟩ ⟨0, 0, 1⟩).z = mkQ 2 0 0 0 := by
    rw [hd, hc, hn]
    apply Quaternion.ext <;>
      simp only [mkQ_re, mkQ_imI, mkQ_imJ, mkQ_imK] <;> norm_num
  have hsign1 : np_sign (1 : ℝ) = 1 := by norm_num [np_sign]
  have hstarmul : star (qpsi psi) * qpsi psi = 1 := by
    rw [Quaternion.star_mul_self, normSq_qpsi, Quaternion.coe_one]
  have hrmax : (0 : ℝ) < 150 * deg2rad := by
    unfold deg2rad
    positivity
  have hclip0 : ∀ r : ℝ, 0 < r → np_clip 0 (-r) r = 0 := fun r hr => by
    unfold np_clip
    rw [max_eq_left (by linarith), min_eq_left hr.le]
  simp only [attitude_control, dcm_qpsi_c3, quatMultiply]
  rw [vectNormalize_down hmg, hbz, hraw, quatNormalize_two, one_mul,
    quatInverse_unit (normSq_qpsi psi), hstarmul]
  simp only [Quaternion.one_re, Quaternion.one_imI, Quaternion.one_imJ,
    Quaternion.one_imK, hsign1, one_smul]
  rw [np_clip_eq_self (by norm_num) (by norm_num),
    np_clip_eq_self (by norm_num) (by norm_num),
    Real.arccos_one, Real.arcsin_zero, mul_zero, Real.cos_zero,
    Real.sin_zero, mkQ_one, mul_one, hstarmul]
  have hrx : cfgD.rateMax.x = 200 * deg2rad := rfl
  have hry : cfgD.rateMax.y = 200 * deg2rad := rfl
  have hrz : cfgD.rateMax.z = 150 * deg2rad := rfl
  have h200 : (0 : ℝ) < 200 * deg2rad := by unfold deg2rad; positivity
  rw [hrz, hclip0 _ hrmax]
  simp only [AttOut.mk.injEq, Quaternion.one_re, Quaternion.one_imI,
    Quaternion.one_imJ, Quaternion.one_imK, hsign1]
  refine ⟨trivial, trivial, trivial, ?_, trivial⟩
  refine Vec3.ext ?_ ?_ ?_ <;>
    simp only [clip3, Vec3.add, Vec3.hmul, Vec3.smul, Vec3.zero, hrx, hry, hrz] <;>
    rw [show ∀ a b : ℝ, 2 * 1 * 0 * a + 0 * b = 0 from fun a b => by ring] <;>
    [exact hclip0 _ h200; exact hclip0 _ h200; exact hclip0 _ hrmax]

theorem hover_z_pos (pos : Vec3) :
    z_pos_control cfgD pos pos Vec3.zero = Vec3.zero := by
  unfold z_pos_control
  refine Vec3.ext ?_ ?_ ?_ <;> simp [Vec3.zero]

theorem hover_xy_pos (pos : Vec3) :
    xy_pos_control cfgD pos pos Vec3.zero = Vec3.zero := by
  unfold xy_pos_control
  refine Vec3.ext ?_ ?_ ?_ <;> simp [Vec3.zero]

theorem saturateVel_zero : saturateVel cfgD Vec3.zero = Vec3.zero := by
  unfold saturateVel
  rw [show cfgD.saturateVel_separately = false from rfl]
  simp only [Bool.false_eq_true, if_false]
  rw [if_neg]
  rw [show Vec3.norm Vec3.zero = 0 by
    unfold Vec3.norm Vec3.dot Vec3.zero
    norm_num]
  rw [show cfgD.velMaxAll = min (min 5 5) 5 from rfl]
  norm_num

theorem addFrep_zero : addFrepToVel pfZero Vec3.zero = Vec3.zero := by
  unfold addFrepToVel pfZero
  refine Vec3.ext ?_ ?_ ?_ <;> simp [Vec3.add, Vec3.smul, Vec3.zero]

theorem hover_yaw_follow (psi ch Ts : ℝ) :
    yaw_follow 4 0 Vec3.zero psi 0 ch Ts = (psi, 0, ch) := by
  simp only [yaw_follow]
  rw [if_pos (⟨trivial, trivial⟩ : True ∧ True), if_neg]
  rw [show Vec3.norm Vec3.zero = 0 by
    unfold Vec3.norm Vec3.dot Vec3.zero
    norm_num]
  norm_num

theorem hover_rate_control :
    rate_control cfgD Vec3.zero Vec3.zero Vec3.zero = Vec3.zero := by
  unfold rate_control
  refine Vec3.ext ?_ ?_ ?_ <;>
    simp [Vec3.sub, Vec3.hmul, Vec3.zero]

theorem vec3_zero_x : Vec3.zero.x = 0 := rfl

theorem vec3_zero_y : Vec3.zero.y = 0 := rfl

theorem vec3_zero_z : Vec3.zero.z = 0 := rfl

theorem hoverQuad_pos (pos : Vec3) (psi : ℝ) : (hoverQuad pos psi).pos = pos :=
  rfl

theorem hover_cascade (qp : QuadParams) (pos : Vec3) (psi Ts : ℝ)
    (hm : 0 < qp.mB) (hg : 0 < qp.g) (hlo : qp.minThr < qp.mB * qp.g)
    (hhi : qp.mB * qp.g < qp.maxThr) (hpsi : |psi| < Real.pi) :
    cascadeCore Orient.NED cfgD (hoverQuad pos psi) qp pfZero Ts Vec3.zero
        Vec3.zero psi 0 Vec3.zero =
      ⟨⟨0, 0, -(qp.mB * qp.g)⟩, ⟨0, 0, -(qp.mB * qp.g)⟩, ⟨0, 0, 0⟩,
        qpsi psi, qpsi psi, qpsi psi, 1, Vec3.zero, Vec3.zero, 0⟩ := by
  have hmg : 0 < qp.mB * qp.g := mul_pos hm hg
  simp only [cascadeCore, hoverQuad, vec3_zero_x, vec3_zero_y, vec3_zero_z,
    hover_z_vel qp Ts hlo hhi, hover_xy_vel qp Ts,
    hover_tta (qp.mB * qp.g) psi hmg hpsi, hover_att (qp.mB * qp.g) psi hmg,
    hover_rate_control]

/-- Claim C7: at hover in the NED frame (position setpoint equal to the
current position, zero velocity/acceleration setpoints, zero vehicle
velocity, acceleration, body rates and derivatives, zero repulsive force,
fresh integral accumulators, zero yaw feed-forward, level orientation with
the commanded yaw, and `mB*g` strictly inside the thrust limits) a full
`xyz_pos` tick produces `thrust_sp.z = -mB*g`, a zero body-rate setpoint and
a zero rate-controller torque demand. -/
theorem hover_equilibrium (qp : QuadParams) (pos : Vec3) (psi ch Ts : ℝ)
    (hm : 0 < qp.mB) (hg : 0 < qp.g) (hlo : qp.minThr < qp.mB * qp.g)
    (hhi : qp.mB * qp.g < qp.maxThr) (hpsi : |psi| < Real.pi) :
    ∃ out, controllerTick Orient.NED cfgD (hoverTraj pos psi ch)
        (hoverQuad pos psi) qp pfZero Ts initState = some out ∧
      out.1.thrust_sp.z = -(qp.mB * qp.g) ∧
      out.1.rate_sp = some Vec3.zero ∧
      out.1.rateCtrl = some Vec3.zero := by
  have heq : controllerTick Orient.NED cfgD (hoverTraj pos psi ch)
      (hoverQuad pos psi) qp pfZero Ts initState =
      some (assembleState pos Vec3.zero Vec3.zero ⟨0, 0, psi⟩ Vec3.zero
        ⟨⟨0, 0, -(qp.mB * qp.g)⟩, ⟨0, 0, -(qp.mB * qp.g)⟩, ⟨0, 0, 0⟩,
          qpsi psi, qpsi psi, qpsi psi, 1, Vec3.zero, Vec3.zero, 0⟩, ch) := by
    simp only [controllerTick, hoverTraj, initState, String.reduceEq,
      reduceIte, hoverQuad_pos]
    rw [hover_z_pos pos, hover_xy_pos pos, saturateVel_zero, addFrep_zero,
      saturateVel_zero, hover_yaw_follow psi ch Ts]
    dsimp only
    rw [hover_cascade qp pos psi Ts hm hg hlo hhi hpsi]
  exact ⟨_, heq, rfl, rfl, rfl⟩

/-- Witness for C7: a vehicle of mass `1` under gravity `10` with thrust
range `[0.1, 30]`, zero commanded yaw. -/
theorem hover_equilibrium_witness :
    ∃ out, controllerTick Orient.NED cfgD (hoverTraj Vec3.zero 0 0)
        (hoverQuad Vec3.zero 0) qpD pfZero 1 initState = some out ∧
      out.1.thrust_sp.z = -(qpD.mB * qpD.g) ∧
      out.1.rate_sp = some Vec3.zero ∧
      out.1.rateCtrl = some Vec3.zero :=
  hover_equilibrium qpD Vec3.zero 0 0 1 (by norm_num [qpD]) (by norm_num [qpD])
    (by norm_num [qpD]) (by norm_num [qpD])
    (by rw [abs_zero]; exact Real.pi_pos)

/-! ## Claim C1: vector geometry facts -/

theorem dot3_comm (a b : Vec3) : Vec3.dot a b = Vec3.dot b a := by
  unfold Vec3.dot; ring

theorem dot3_smul_left (c : ℝ) (a b : Vec3) :
    Vec3.dot (Vec3.smul c a) b = c * Vec3.dot a b := by
  unfold Vec3.dot Vec3.smul; ring

theorem dot3_pos_of_ne_zero {v : Vec3} (h : v ≠ Vec3.zero) :
    0 < Vec3.dot v v := by
  rcases lt_or_eq_of_le (dot3_self_nonneg v) with hlt | heq
  · exact hlt
  · exfalso
    apply h
    have hx : v.x * v.x + v.y * v.y + v.z * v.z = 0 := by
      unfold Vec3.dot at heq; linarith
    have h1 : v.x = 0 := by nlinarith [mul_self_nonneg v.x, mul_self_nonneg v.y, mul_self_nonneg v.z]
    have h2 : v.y = 0 := by nlinarith [mul_self_nonneg v.x, mul_self_nonneg v.y, mul_self_nonneg v.z]
    have h3 : v.z = 0 := by nlinarith [mul_self_nonneg v.x, mul_self_nonneg v.y, mul_self_nonneg v.z]
    exact Vec3.ext h1 h2 h3

theorem dot3_smul_smul (c : ℝ) (a b : Vec3) :
    Vec3.dot (Vec3.smul c a) (Vec3.smul c b) = c ^ 2 * Vec3.dot a b := by
  unfold Vec3.dot Vec3.smul; ring

theorem dot_vectNormalize {v : Vec3} (h : v ≠ Vec3.zero) :
    Vec3.dot (vectNormalize v) (vectNormalize v) = 1 := by
  have hpos := dot3_pos_of_ne_zero h
  unfold vectNormalize Vec3.norm
  rw [dot3_smul_smul, inv_pow, Real.sq_sqrt (dot3_self_nonneg v)]
  exact inv_mul_cancel₀ (ne_of_gt hpos)

theorem dot_ezdOf (orient : Orient) {v : Vec3} (hv : v ≠ Vec3.zero) :
    Vec3.dot (ezdOf orient v) (ezdOf orient v) = 1 := by
  cases orient <;> simp only [ezdOf]
  · rw [dot3_smul_smul, dot_vectNormalize hv]; norm_num
  · rw [dot3_smul_smul, dot3_smul_smul, dot_vectNormalize hv]; norm_num

theorem dot3_cross_right (a b : Vec3) : Vec3.dot (Vec3.cross a b) b = 0 := by
  unfold Vec3.dot Vec3.cross; ring

theorem dot3_cross_self (a b : Vec3) : Vec3.dot a (Vec3.cross b a) = 0 := by
  unfold Vec3.dot Vec3.cross; ring

theorem cross_cross_self (x z : Vec3) :
    Vec3.cross x (Vec3.cross z x) =
      Vec3.sub (Vec3.smul (Vec3.dot x x) z) (Vec3.smul (Vec3.dot x z) x) := by
  refine Vec3.ext ?_ ?_ ?_ <;>
    simp only [Vec3.cross, Vec3.sub, Vec3.smul, Vec3.dot] <;> ring

/-! ## Shape lemmas: the attitude-stage outputs written via `ezdOf` -/

theorem thrustToAttitude_snd (orient : Orient) (potfld : PotField)
    (thrust_sp : Vec3) (yaw_sp : ℝ) :
    (thrustToAttitude orient potfld thrust_sp yaw_sp).2 =
      RotToQuat ⟨vectNormalize (Vec3.cross ⟨-Real.sin yaw_sp, Real.cos yaw_sp, 0⟩
          (ezdOf orient (thrustToAttitude orient potfld thrust_sp yaw_sp).1)),
        Vec3.cross (ezdOf orient (thrustToAttitude orient potfld thrust_sp yaw_sp).1)
          (vectNormalize (Vec3.cross ⟨-Real.sin yaw_sp, Real.cos yaw_sp, 0⟩
            (ezdOf orient (thrustToAttitude orient potfld thrust_sp yaw_sp).1))),
        ezdOf orient (thrustToAttitude orient potfld thrust_sp yaw_sp).1⟩ := by
  cases orient <;> rfl

theorem thrustToAttitude_fst (orient : Orient) (potfld : PotField)
    (thrust_sp : Vec3) (yaw_sp : ℝ) :
    (thrustToAttitude orient potfld thrust_sp yaw_sp).1 =
      Vec3.add thrust_sp (Vec3.smul potfld.pfFor potfld.F_rep) := by
  cases orient <;> rfl

theorem attitude_qd_red_eq (orient : Orient) (cfg : Config)
    (quat : Quaternion ℝ) (dcm : Mat3) (trep : Vec3) (qdf : Quaternion ℝ)
    (yawFF : ℝ) :
    (attitude_control orient cfg quat dcm trep qdf yawFF).qd_red =
      quatMultiply (quatNormalize (mkQ
        (Vec3.dot dcm.c3 (ezdOf orient trep) +
          Real.sqrt (Vec3.norm dcm.c3 ^ 2 * Vec3.norm (ezdOf orient trep) ^ 2))
        (Vec3.cross dcm.c3 (ezdOf orient trep)).x
        (Vec3.cross dcm.c3 (ezdOf orient trep)).y
        (Vec3.cross dcm.c3 (ezdOf orient trep)).z)) quat := by
  cases orient <;> rfl

theorem attitude_qd_eq (orient : Orient) (cfg : Config) (quat : Quaternion ℝ)
    (dcm : Mat3) (trep : Vec3) (qdf : Quaternion ℝ) (yawFF : ℝ) :
    (attitude_control orient cfg quat dcm trep qdf yawFF).qd =
      quatMultiply (attitude_control orient cfg quat dcm trep qdf yawFF).qd_red
        (mkQ (Real.cos (cfg.yaw_w * Real.arccos (np_clip
            (np_sign (quatMultiply (quatInverse
              (attitude_control orient cfg quat dcm trep qdf yawFF).qd_red)
                qdf).re •
              quatMultiply (quatInverse
                (attitude_control orient cfg quat dcm trep qdf yawFF).qd_red)
                qdf).re (-1) 1)))
          0 0
          (Real.sin (cfg.yaw_w * Real.arcsin (np_clip
            (np_sign (quatMultiply (quatInverse
              (attitude_control orient cfg quat dcm trep qdf yawFF).qd_red)
                qdf).re •
              quatMultiply (quatInverse
                (attitude_control orient cfg quat dcm trep qdf yawFF).qd_red)
                qdf).imK (-1) 1)))) := by
  cases orient <;> rfl

theorem attitude_qe_eq (orient : Orient) (cfg : Config) (quat : Quaternion ℝ)
    (dcm : Mat3) (trep : Vec3) (qdf : Quaternion ℝ) (yawFF : ℝ) :
    (attitude_control orient cfg quat dcm trep qdf yawFF).qe =
      quatMultiply (quatInverse quat)
        (attitude_control orient cfg quat dcm trep qdf yawFF).qd := by
  cases orient <;> rfl

/-! ## `RotToQuat` on a positive-trace frame -/

theorem RotToQuat_eq_normalize_Qframe (x y z : Vec3)
    (htr : 0 < 1 + (x.x + y.y + z.z)) :
    RotToQuat ⟨x, y, z⟩ = quatNormalize (Qframe x y z) := by
  have hs : 0 < Real.sqrt (1 + (x.x + y.y + z.z)) := Real.sqrt_pos.mpr htr
  have hsq : Real.sqrt (1 + (x.x + y.y + z.z)) ^ 2 = 1 + (x.x + y.y + z.z) :=
    Real.sq_sqrt htr.le
  have hraw : mkQ (0.5 * Real.sqrt (1 + (x.x + y.y + z.z)))
      ((y.z - z.y) * (0.25 / (0.5 * Real.sqrt (1 + (x.x + y.y + z.z)))))
      ((z.x - x.z) * (0.25 / (0.5 * Real.sqrt (1 + (x.x + y.y + z.z)))))
      ((x.y - y.x) * (0.25 / (0.5 * Real.sqrt (1 + (x.x + y.y + z.z))))) =
      (2 * Real.sqrt (1 + (x.x + y.y + z.z)))⁻¹ • Qframe x y z := by
    apply Quaternion.ext <;>
      simp only [mkQ_re, mkQ_imI, mkQ_imJ, mkQ_imK, Quaternion.smul_re,
        Quaternion.smul_imI, Quaternion.smul_imJ, Quaternion.smul_imK,
        Qframe, smul_eq_mul]
    · field_simp
      nlinarith [hsq]
    · field_simp; ring
    · field_simp; ring
    · field_simp; ring
  have hpos : 0 < (2 * Real.sqrt (1 + (x.x + y.y + z.z)))⁻¹ := by positivity
  simp only [RotToQuat]
  rw [hraw, quatNormalize_smul hpos]

theorem Qframe_ne_zero {x y z : Vec3} (htr : 0 < 1 + (x.x + y.y + z.z)) :
    Qframe x y z ≠ 0 := by
  intro h
  have := congrArg Quaternion.re h
  rw [Qframe, mkQ_re, Quaternion.zero_re] at this
  linarith

/-- The `RotToQuat` output on the frame built by `thrustToAttitude` from a
unit desired body-z direction `b` and the yaw vector is a unit quaternion
that rotates the body `e3` axis onto `b`. -/
theorem qd_full_unit_rot (b : Vec3) (yaw_sp : ℝ) (hb : Vec3.dot b b = 1)
    (hcx : Vec3.cross ⟨-Real.sin yaw_sp, Real.cos yaw_sp, 0⟩ b ≠ Vec3.zero)
    (htr : 0 < 1 +
      ((vectNormalize (Vec3.cross ⟨-Real.sin yaw_sp, Real.cos yaw_sp, 0⟩ b)).x +
        (Vec3.cross b (vectNormalize
          (Vec3.cross ⟨-Real.sin yaw_sp, Real.cos yaw_sp, 0⟩ b))).y + b.z)) :
    Quaternion.normSq (RotToQuat
        ⟨vectNormalize (Vec3.cross ⟨-Real.sin yaw_sp, Real.cos yaw_sp, 0⟩ b),
          Vec3.cross b (vectNormalize
            (Vec3.cross ⟨-Real.sin yaw_sp, Real.cos yaw_sp, 0⟩ b)),
          b⟩) = 1 ∧
    RotToQuat ⟨vectNormalize (Vec3.cross ⟨-Real.sin yaw_sp, Real.cos yaw_sp, 0⟩ b),
        Vec3.cross b (vectNormalize
          (Vec3.cross ⟨-Real.sin yaw_sp, Real.cos yaw_sp, 0⟩ b)),
        b⟩ * pureQ e3v *
      star (RotToQuat
        ⟨vectNormalize (Vec3.cross ⟨-Real.sin yaw_sp, Real.cos yaw_sp, 0⟩ b),
          Vec3.cross b (vectNormalize
            (Vec3.cross ⟨-Real.sin yaw_sp, Real.cos yaw_sp, 0⟩ b)),
          b⟩) = pureQ b := by
  set yC : Vec3 := ⟨-Real.sin yaw_sp, Real.cos yaw_sp, 0⟩ with hyC
  set w : Vec3 := Vec3.cross yC b with hw
  set x : Vec3 := vectNormalize w with hx
  set y : Vec3 := Vec3.cross b x with hy
  have hxx : Vec3.dot x x = 1 := dot_vectNormalize hcx
  have hxb : Vec3.dot x b = 0 := by
    rw [hx]
    unfold vectNormalize
    rw [dot3_smul_left, hw, dot3_cross_right, mul_zero]
  have hyy : Vec3.dot y y = 1 := by
    rw [hy, lagrange_cross, hb, hxx, dot3_comm b x, hxb]
    norm_num
  have hxy : Vec3.dot x y = 0 := by
    rw [hy, dot3_cross_self]
  have hzc : Vec3.cross x y = b := by
    rw [hy, cross_cross_self, hxx, hxb]
    refine Vec3.ext ?_ ?_ ?_ <;> simp [Vec3.sub, Vec3.smul]
  have hRQ : RotToQuat ⟨x, y, b⟩ = quatNormalize (Qframe x y b) :=
    RotToQuat_eq_normalize_Qframe x y b htr
  have hQnz : Qframe x y b ≠ 0 := Qframe_ne_zero htr
  have hQpos : 0 < Quaternion.normSq (Qframe x y b) :=
    lt_of_le_of_ne Quaternion.normSq_nonneg
      (Ne.symm (Quaternion.normSq_ne_zero.mpr hQnz))
  constructor
  · rw [hRQ]
    exact normSq_quatNormalize hQnz
  · rw [hRQ, quatNormalize_rot, Qframe_rot x y b hxx hyy hxy hzc.symm,
      inv_pow, Real.sq_sqrt hQpos.le, smul_smul,
      inv_mul_cancel₀ (ne_of_gt hQpos), one_smul]

theorem rot_mul (p q : Quaternion ℝ) (v : Vec3) :
    (p * q) * pureQ v * star (p * q) =
      p * (q * pureQ v * star q) * star p := by
  rw [star_mul]
  simp only [mul_assoc]

/-- The reduced desired quaternion built by `attitude_control` from a unit
current orientation and a unit desired direction `b` (not exactly opposite
the current body-down axis) is a unit quaternion that rotates the body `e3`
axis onto `b`. -/
theorem qd_red_unit_rot (quat : Quaternion ℝ) (b : Vec3)
    (hquat : Quaternion.normSq quat = 1) (hb : Vec3.dot b b = 1)
    (hopp : Vec3.dot (quat2Dcm quat).c3 b ≠ -1) :
    Quaternion.normSq (quatMultiply (quatNormalize (mkQ
        (Vec3.dot (quat2Dcm quat).c3 b +
          Real.sqrt (Vec3.norm (quat2Dcm quat).c3 ^ 2 * Vec3.norm b ^ 2))
        (Vec3.cross (quat2Dcm quat).c3 b).x
        (Vec3.cross (quat2Dcm quat).c3 b).y
        (Vec3.cross (quat2Dcm quat).c3 b).z)) quat) = 1 ∧
    quatMultiply (quatNormalize (mkQ
        (Vec3.dot (quat2Dcm quat).c3 b +
          Real.sqrt (Vec3.norm (quat2Dcm quat).c3 ^ 2 * Vec3.norm b ^ 2))
        (Vec3.cross (quat2Dcm quat).c3 b).x
        (Vec3.cross (quat2Dcm quat).c3 b).y
        (Vec3.cross (quat2Dcm quat).c3 b).z)) quat * pureQ e3v *
      star (quatMultiply (quatNormalize (mkQ
        (Vec3.dot (quat2Dcm quat).c3 b +
          Real.sqrt (Vec3.norm (quat2Dcm quat).c3 ^ 2 * Vec3.norm b ^ 2))
        (Vec3.cross (quat2Dcm quat).c3 b).x
        (Vec3.cross (quat2Dcm quat).c3 b).y
        (Vec3.cross (quat2Dcm quat).c3 b).z)) quat) = pureQ b := by
  set ez : Vec3 := (quat2Dcm quat).c3 with hez
  have hezu : Vec3.dot ez ez = 1 := by
    rw [hez, dot_quat2Dcm_c3, hquat]
    norm_num
  have hnormez : Vec3.norm ez ^ 2 = 1 := by rw [norm3_sq, hezu]
  have hnormb : Vec3.norm b ^ 2 = 1 := by rw [norm3_sq, hb]
  have hraw : mkQ (Vec3.dot ez b + Real.sqrt (Vec3.norm ez ^ 2 * Vec3.norm b ^ 2))
      (Vec3.cross ez b).x (Vec3.cross ez b).y (Vec3.cross ez b).z =
      rawAlign ez b := by
    rw [hnormez, hnormb]
    unfold rawAlign
    norm_num
  have hdot_le : Vec3.dot ez b ^ 2 ≤ 1 := by
    have hl := lagrange_cross ez b
    rw [hezu, hb] at hl
    nlinarith [dot3_self_nonneg (Vec3.cross ez b)]
  have hge : -1 ≤ Vec3.dot ez b := by nlinarith [hdot_le]
  have hgt : -1 < Vec3.dot ez b :=
    lt_of_le_of_ne hge (fun h => hopp h.symm)
  have hnsraw : Quaternion.normSq (rawAlign ez b) = 2 * (1 + Vec3.dot ez b) :=
    normSq_rawAlign ez b hezu hb
  have hrawpos : 0 < Quaternion.normSq (rawAlign ez b) := by
    rw [hnsraw]; linarith
  have hrawnz : rawAlign ez b ≠ 0 :=
    Quaternion.normSq_ne_zero.mp (ne_of_gt hrawpos)
  rw [hraw]
  constructor
  · simp only [quatMultiply]
    rw [normSq_mul, normSq_quatNormalize hrawnz, hquat, one_mul]
  · simp only [quatMultiply]
    rw [rot_mul (quatNormalize (rawAlign ez b)) quat e3v, quat_rot_e3 quat,
      ← hez, quatNormalize_rot, rawAlign_rot ez b hezu hb, inv_pow,
      Real.sq_sqrt Quaternion.normSq_nonneg, smul_smul,
      inv_mul_cancel₀ (ne_of_gt hrawpos), one_smul]

/-- When both the reduced and the full desired quaternions rotate `e3` onto
the same direction, their mixing quaternion is a unit pure-z rotation. -/
theorem mix_z (p f : Quaternion ℝ) (b : Vec3)
    (hp : Quaternion.normSq p = 1) (hf : Quaternion.normSq f = 1)
    (hpb : p * pureQ e3v * star p = pureQ b)
    (hfb : f * pureQ e3v * star f = pureQ b) :
    Quaternion.normSq (star p * f) = 1 ∧ (star p * f).imI = 0 ∧
      (star p * f).imJ = 0 ∧ (star p * f).re ^ 2 + (star p * f).imK ^ 2 = 1 := by
  have hm : Quaternion.normSq (star p * f) = 1 := by
    rw [normSq_mul, Quaternion.normSq_star, hp, hf, one_mul]
  have hrot : (star p * f) * pureQ e3v * star (star p * f) = pureQ e3v := by
    rw [rot_mul (star p) f e3v, hfb, star_star]
    calc star p * pureQ b * p
        = star p * (p * pureQ e3v * star p) * p := by rw [hpb]
      _ = (star p * p) * pureQ e3v * (star p * p) := by
          simp only [mul_assoc]
      _ = pureQ e3v := by
          rw [Quaternion.star_mul_self, hp, Quaternion.coe_one, one_mul,
            mul_one]
  have hcol : pureQ ((quat2Dcm (star p * f)).c3) = pureQ e3v := by
    rw [← quat_rot_e3]
    exact hrot
  have hz : (quat2Dcm (star p * f)).c3.z = (e3v).z :=
    congrArg Quaternion.imK hcol
  have hz' : (star p * f).re ^ 2 - (star p * f).imI ^ 2 -
      (star p * f).imJ ^ 2 + (star p * f).imK ^ 2 = 1 := by
    simpa [quat2Dcm, e3v] using hz
  have hm' : (star p * f).re ^ 2 + (star p * f).imI ^ 2 +
      (star p * f).imJ ^ 2 + (star p * f).imK ^ 2 = 1 := by
    rw [← Quaternion.normSq_def', hm]
  have hi : (star p * f).imI = 0 := by
    nlinarith [sq_nonneg (star p * f).imI, sq_nonneg (star p * f).imJ]
  have hj : (star p * f).imJ = 0 := by
    nlinarith [sq_nonneg (star p * f).imI, sq_nonneg (star p * f).imJ]
  refine ⟨hm, hi, hj, ?_⟩
  nlinarith [hi, hj]

/-- The clamped inverse-trig mixing factor has unit norm whenever the
canonicalized scalar part is positive and `re^2 + k^2 = 1`. -/
theorem factor_unit (w r k : ℝ) (hr : 0 < r) (hrk : r ^ 2 + k ^ 2 = 1) :
    Real.cos (w * Real.arccos r) ^ 2 + Real.sin (w * Real.arcsin k) ^ 2 = 1 := by
  have hk1 : -1 ≤ k := by nlinarith
  have hk2 : k ≤ 1 := by nlinarith
  have hcosk : Real.cos (Real.arcsin k) = r := by
    rw [Real.cos_arcsin]
    rw [show 1 - k ^ 2 = r ^ 2 by linarith, Real.sqrt_sq hr.le]
  have h1 : Real.arcsin k ≤ Real.pi / 2 := Real.arcsin_le_pi_div_two k
  have h2 : -(Real.pi / 2) ≤ Real.arcsin k := Real.neg_pi_div_two_le_arcsin k
  have hpi : 0 < Real.pi := Real.pi_pos
  have harc : Real.arccos r = |Real.arcsin k| := by
    rcases le_or_lt 0 (Real.arcsin k) with hpos | hneg
    · rw [abs_of_nonneg hpos, ← hcosk]
      exact Real.arccos_cos hpos (by linarith)
    · rw [abs_of_neg hneg, ← hcosk, ← Real.cos_neg]
      exact Real.arccos_cos (by linarith) (by linarith)
  rw [harc]
  rcases abs_choice (Real.arcsin k) with h | h <;> rw [h]
  · rw [add_comm]
    exact Real.sin_sq_add_cos_sq (w * Real.arcsin k)
  · rw [mul_neg, Real.cos_neg, add_comm]
    exact Real.sin_sq_add_cos_sq (w * Real.arcsin k)

theorem np_sign_mul_self (x : ℝ) : np_sign x * x = |x| := by
  unfold np_sign
  rcases lt_trichotomy x 0 with h | h | h
  · rw [if_neg (by linarith), if_pos h, abs_of_neg h]; ring
  · subst h; simp
  · rw [if_pos h, abs_of_pos h]; ring

theorem np_sign_sq {x : ℝ} (h : x ≠ 0) : np_sign x ^ 2 = 1 := by
  unfold np_sign
  rcases lt_trichotomy x 0 with h1 | h1 | h1
  · rw [if_neg (by linarith), if_pos h1]; norm_num
  · exact absurd h1 h
  · rw [if_pos h1]; norm_num

theorem abs_le_one_of_sq_le_one {x : ℝ} (h : x ^ 2 ≤ 1) : |x| ≤ 1 := by
  nlinarith [sq_abs x, abs_nonneg x]

/-- C1 (amended): on a tick of the attitude stage with a unit current
orientation, a nonzero repulsion-augmented thrust whose desired body-z
direction is not exactly opposite the current one (positive-trace frame for
the spec-modelled `RotToQuat`), and a mixing quaternion whose scalar part is
nonzero (so that `np.sign` does not return 0 at line 355), all four
quaternion outputs `qd_full`, `qd_red`, `qd` and `qe` are unit-norm. -/
theorem attitude_stage_unit_norms
    (orient : Orient) (cfg : Config) (potfld : PotField)
    (quat : Quaternion ℝ) (thrust_sp : Vec3) (yaw_sp yawFF : ℝ)
    (trep : Vec3) (qdf : Quaternion ℝ) (out : AttOut)
    (htta : thrustToAttitude orient potfld thrust_sp yaw_sp = (trep, qdf))
    (hout : out = attitude_control orient cfg quat (quat2Dcm quat) trep qdf yawFF)
    (hquat : Quaternion.normSq quat = 1)
    (htrep : trep ≠ Vec3.zero)
    (hopp : Vec3.dot (quat2Dcm quat).c3 (ezdOf orient trep) ≠ -1)
    (hcx : Vec3.cross ⟨-Real.sin yaw_sp, Real.cos yaw_sp, 0⟩ (ezdOf orient trep) ≠
      Vec3.zero)
    (htr : 0 < 1 +
      ((vectNormalize (Vec3.cross ⟨-Real.sin yaw_sp, Real.cos yaw_sp, 0⟩
          (ezdOf orient trep))).x +
        (Vec3.cross (ezdOf orient trep) (vectNormalize
          (Vec3.cross ⟨-Real.sin yaw_sp, Real.cos yaw_sp, 0⟩
            (ezdOf orient trep)))).y +
        (ezdOf orient trep).z))
    (hmix : (quatMultiply (quatInverse out.qd_red) qdf).re ≠ 0) :
    Quaternion.normSq qdf = 1 ∧ Quaternion.normSq out.qd_red = 1 ∧
      Quaternion.normSq out.qd = 1 ∧ Quaternion.normSq out.qe = 1 := by
  have hb : Vec3.dot (ezdOf orient trep) (ezdOf orient trep) = 1 :=
    dot_ezdOf orient htrep
  have hfst : (thrustToAttitude orient potfld thrust_sp yaw_sp).1 = trep := by
    rw [htta]
  have hsnd : (thrustToAttitude orient potfld thrust_sp yaw_sp).2 = qdf := by
    rw [htta]
  have hqdf : qdf = RotToQuat
      ⟨vectNormalize (Vec3.cross ⟨-Real.sin yaw_sp, Real.cos yaw_sp, 0⟩
          (ezdOf orient trep)),
        Vec3.cross (ezdOf orient trep) (vectNormalize
          (Vec3.cross ⟨-Real.sin yaw_sp, Real.cos yaw_sp, 0⟩
            (ezdOf orient trep))),
        ezdOf orient trep⟩ := by
    rw [← hsnd, thrustToAttitude_snd, hfst]
  obtain ⟨hfu0, hfrot0⟩ := qd_full_unit_rot (ezdOf orient trep) yaw_sp hb hcx htr
  have hfu : Quaternion.normSq qdf = 1 := by rw [hqdf]; exact hfu0
  have hfrot : qdf * pureQ e3v * star qdf = pureQ (ezdOf orient trep) := by
    rw [hqdf]; exact hfrot0
  have hred : out.qd_red = quatMultiply (quatNormalize (mkQ
      (Vec3.dot (quat2Dcm quat).c3 (ezdOf orient trep) +
        Real.sqrt (Vec3.norm (quat2Dcm quat).c3 ^ 2 *
          Vec3.norm (ezdOf orient trep) ^ 2))
      (Vec3.cross (quat2Dcm quat).c3 (ezdOf orient trep)).x
      (Vec3.cross (quat2Dcm quat).c3 (ezdOf orient trep)).y
      (Vec3.cross (quat2Dcm quat).c3 (ezdOf orient trep)).z)) quat := by
    rw [hout]
    exact attitude_qd_red_eq orient cfg quat (quat2Dcm quat) trep qdf yawFF
  obtain ⟨hru0, hrrot0⟩ := qd_red_unit_rot quat (ezdOf orient trep) hquat hb hopp
  have hru : Quaternion.normSq out.qd_red = 1 := by rw [hred]; exact hru0
  have hrrot : out.qd_red * pureQ e3v * star out.qd_red =
      pureQ (ezdOf orient trep) := by rw [hred]; exact hrrot0
  obtain ⟨hmu, hmi, hmj, hmk⟩ :=
    mix_z out.qd_red qdf (ezdOf orient trep) hru hfu hrrot hfrot
  have hq0 : quatMultiply (quatInverse out.qd_red) qdf =
      star out.qd_red * qdf := by
    rw [quatInverse_unit hru]; rfl
  rw [hq0] at hmix
  have hqd := attitude_qd_eq orient cfg quat (quat2Dcm quat) trep qdf yawFF
  rw [← hout, hq0] at hqd
  simp only [Quaternion.smul_re, Quaternion.smul_imK, smul_eq_mul] at hqd
  rw [np_sign_mul_self] at hqd
  have hr2 : (star out.qd_red * qdf).re ^ 2 ≤ 1 := by
    nlinarith [sq_nonneg (star out.qd_red * qdf).imK]
  have hk2 : (np_sign (star out.qd_red * qdf).re *
      (star out.qd_red * qdf).imK) ^ 2 = (star out.qd_red * qdf).imK ^ 2 := by
    rw [mul_pow, np_sign_sq hmix, one_mul]
  have habs : |(star out.qd_red * qdf).re| ≤ 1 := abs_le_one_of_sq_le_one hr2
  have habs2 : |np_sign (star out.qd_red * qdf).re *
      (star out.qd_red * qdf).imK| ≤ 1 := by
    apply abs_le_one_of_sq_le_one
    rw [hk2]
    nlinarith [sq_nonneg (star out.qd_red * qdf).re]
  rw [np_clip_eq_self (by
      linarith [abs_nonneg (star out.qd_red * qdf).re] : (-1 : ℝ) ≤
        |(star out.qd_red * qdf).re|) habs,
    np_clip_eq_self (neg_le_of_abs_le habs2) (le_of_abs_le habs2)] at hqd
  have hrpos : 0 < |(star out.qd_red * qdf).re| := abs_pos.mpr hmix
  have hfac := factor_unit cfg.yaw_w |(star out.qd_red * qdf).re|
    (np_sign (star out.qd_red * qdf).re * (star out.qd_red * qdf).imK)
    hrpos (by rw [sq_abs, hk2]; exact hmk)
  have hqdu : Quaternion.normSq out.qd = 1 := by
    rw [hqd]
    simp only [quatMultiply]
    rw [normSq_mul, hru, one_mul, normSq_mkQ]
    nlinarith [hfac]
  refine ⟨hfu, hru, hqdu, ?_⟩
  have hqe := attitude_qe_eq orient cfg quat (quat2Dcm quat) trep qdf yawFF
  rw [← hout] at hqe
  rw [hqe]
  simp only [quatMultiply]
  rw [normSq_mul, quatInverse_unit hquat, normSq_star_unit hquat, one_mul, hqdu]

/-! ## Concrete evaluations at the witness and counterexample scenarios -/

theorem qpsi_zero : qpsi 0 = 1 := by
  unfold qpsi
  rw [show (0 : ℝ) / 2 = 0 by norm_num, Real.cos_zero, Real.sin_zero, mkQ_one]

theorem qpsi_mul (a b : ℝ) : qpsi a * qpsi b = qpsi (a + b) := by
  unfold qpsi
  apply Quaternion.ext <;>
    simp only [Quaternion.mul_re, Quaternion.mul_imI, Quaternion.mul_imJ,
      Quaternion.mul_imK, mkQ_re, mkQ_imI, mkQ_imJ, mkQ_imK]
  · rw [show (a + b) / 2 = a / 2 + b / 2 by ring, Real.cos_add]; ring
  · ring
  · ring
  · rw [show (a + b) / 2 = a / 2 + b / 2 by ring, Real.sin_add]; ring

theorem star_qpsi (a : ℝ) : star (qpsi a) = qpsi (-a) := by
  unfold qpsi
  apply Quaternion.ext <;>
    simp only [Quaternion.star_re, Quaternion.star_imI, Quaternion.star_imJ,
      Quaternion.star_imK, mkQ_re, mkQ_imI, mkQ_imJ, mkQ_imK]
  · rw [show -a / 2 = -(a / 2) by ring, Real.cos_neg]
  · norm_num
  · norm_num
  · rw [show -a / 2 = -(a / 2) by ring, Real.sin_neg]

theorem cexQuat_eq : cexQuat = qpsi (Real.pi / 2) := by
  unfold cexQuat qpsi
  rw [show Real.pi / 2 / 2 = Real.pi / 4 by ring, Real.cos_pi_div_four,
    Real.sin_pi_div_four]

theorem ezd_cexThrust : ezdOf Orient.NED cexThrust = ⟨0, 0, 1⟩ := by
  show Vec3.smul (-1) (vectNormalize cexThrust) = _
  rw [show cexThrust = ⟨0, 0, -(1 : ℝ)⟩ from rfl, vectNormalize_down one_pos]
  refine Vec3.ext ?_ ?_ ?_ <;> simp [Vec3.smul]

theorem cfgD_yaw_w : cfgD.yaw_w = 3 / 16 := by
  unfold cfgD ctrlInit setYawWeight defaultParams
  norm_num [np_clip]

theorem cexTta_eq : cexTta = (cexThrust, qpsi (-(Real.pi / 2))) := by
  have hpi := Real.pi_pos
  unfold cexTta
  rw [show cexThrust = ⟨0, 0, -(1 : ℝ)⟩ from rfl]
  exact hover_tta 1 (-(Real.pi / 2)) one_pos
    (by rw [abs_neg, abs_of_pos (by linarith)]; linarith)

theorem witTta_eq : witTta = (cexThrust, 1) := by
  have hpi := Real.pi_pos
  unfold witTta
  rw [show cexThrust = ⟨0, 0, -(1 : ℝ)⟩ from rfl,
    hover_tta 1 0 one_pos (by rw [abs_zero]; linarith), qpsi_zero]

theorem witOut_eq : witOut = ⟨1, 1, 1, Vec3.zero, 0⟩ := by
  have h := hover_att 1 0 one_pos
  rw [qpsi_zero] at h
  unfold witOut
  rw [witTta_eq]
  exact h

theorem cexDcm_c3 : (quat2Dcm cexQuat).c3 = ⟨0, 0, 1⟩ := by
  have h2 : Real.sqrt 2 ^ 2 = 2 := Real.sq_sqrt (by norm_num)
  unfold cexQuat quat2Dcm
  simp only [mkQ_re, mkQ_imI, mkQ_imJ, mkQ_imK]
  refine Vec3.ext ?_ ?_ ?_ <;> norm_num [div_pow, h2]

theorem cex_qd_red : cexOut.qd_red = cexQuat := by
  have hezd : ezdOf Orient.NED cexTta.1 = ⟨0, 0, 1⟩ := by
    rw [cexTta_eq]; exact ezd_cexThrust
  have hd : Vec3.dot (⟨0, 0, 1⟩ : Vec3) ⟨0, 0, 1⟩ = 1 := by norm_num [Vec3.dot]
  have hc : Vec3.cross (⟨0, 0, 1⟩ : Vec3) ⟨0, 0, 1⟩ = ⟨0, 0, 0⟩ := by
    refine Vec3.ext ?_ ?_ ?_ <;> norm_num [Vec3.cross]
  have hn : Vec3.norm (⟨0, 0, 1⟩ : Vec3) = 1 := by
    unfold Vec3.norm; rw [hd, Real.sqrt_one]
  unfold cexOut
  rw [attitude_qd_red_eq, hezd, cexDcm_c3, hd, hc, hn]
  have hraw : mkQ ((1 : ℝ) + Real.sqrt ((1 : ℝ) ^ 2 * 1 ^ 2))
      (⟨0, 0, 0⟩ : Vec3).x (⟨0, 0, 0⟩ : Vec3).y (⟨0, 0, 0⟩ : Vec3).z =
      mkQ 2 0 0 0 := by
    apply Quaternion.ext <;>
      simp only [mkQ_re, mkQ_imI, mkQ_imJ, mkQ_imK] <;> norm_num
  rw [hraw, quatNormalize_two]
  simp only [quatMultiply]
  rw [one_mul]

theorem cex_qd_normSq : Quaternion.normSq cexOut.qd =
    Real.cos (3 * Real.pi / 32) ^ 2 := by
  have hcexu : Quaternion.normSq cexQuat = 1 := by
    rw [cexQuat_eq]; exact normSq_qpsi _
  have hred : (attitude_control Orient.NED cfgD cexQuat (quat2Dcm cexQuat)
      cexTta.1 cexTta.2 0).qd_red = cexQuat := cex_qd_red
  have hq0 : quatMultiply (quatInverse cexQuat) cexTta.2 = qpsi (-Real.pi) := by
    rw [cexTta_eq]
    show quatInverse cexQuat * qpsi (-(Real.pi / 2)) = _
    rw [quatInverse_unit hcexu, cexQuat_eq, star_qpsi, qpsi_mul]
    congr 1
    ring
  have hre : (qpsi (-Real.pi)).re = 0 := by
    unfold qpsi
    rw [mkQ_re, show -Real.pi / 2 = -(Real.pi / 2) by ring, Real.cos_neg,
      Real.cos_pi_div_two]
  have hsign0 : np_sign (0 : ℝ) = 0 := by norm_num [np_sign]
  show Quaternion.normSq (attitude_control Orient.NED cfgD cexQuat
      (quat2Dcm cexQuat) cexTta.1 cexTta.2 0).qd = _
  rw [attitude_qd_eq, hred, hq0, hre, hsign0, zero_smul, Quaternion.zero_re,
    Quaternion.zero_imK, np_clip_eq_self (by norm_num) (by norm_num),
    Real.arccos_zero, Real.arcsin_zero, mul_zero, Real.sin_zero, cfgD_yaw_w,
    show (3 : ℝ) / 16 * (Real.pi / 2) = 3 * Real.pi / 32 by ring]
  simp only [quatMultiply]
  rw [normSq_mul, hcexu, one_mul, normSq_mkQ]
  norm_num

/-- C1, counterexample to the original claim: the vehicle holds a unit
orientation quaternion (a +90 degree yaw), the repulsion-augmented thrust
`(0,0,-1)` is nonzero and its desired body-z direction is not opposite the
current one, yet with commanded yaw -90 degrees the mixing quaternion's
scalar part is exactly 0, `np.sign(0) = 0` zeroes the whole mix quaternion
(ctrl.py line 355), and `qd` leaves the attitude stage with norm
`cos(3*pi/32) < 1`: not unit-norm. -/
theorem claim_C1_counterexample :
    Quaternion.normSq cexQuat = 1 ∧ cexTta.1 ≠ Vec3.zero ∧
      Vec3.dot (quat2Dcm cexQuat).c3 (ezdOf Orient.NED cexTta.1) ≠ -1 ∧
      Quaternion.normSq cexOut.qd ≠ 1 := by
  have hpi := Real.pi_pos
  have hcexu : Quaternion.normSq cexQuat = 1 := by
    rw [cexQuat_eq]; exact normSq_qpsi _
  refine ⟨hcexu, ?_, ?_, ?_⟩
  · rw [cexTta_eq]
    intro h
    have hz := congrArg Vec3.z h
    norm_num [cexThrust, Vec3.zero] at hz
  · have hezd : ezdOf Orient.NED cexTta.1 = ⟨0, 0, 1⟩ := by
      rw [cexTta_eq]; exact ezd_cexThrust
    rw [hezd, cexDcm_c3]
    norm_num [Vec3.dot]
  · rw [cex_qd_normSq]
    have h1 : Real.cos (3 * Real.pi / 32) < Real.cos 0 :=
      Real.cos_lt_cos_of_nonneg_of_le_pi le_rfl (by linarith) (by linarith)
    rw [Real.cos_zero] at h1
    have h2 : 0 < Real.cos (3 * Real.pi / 32) :=
      Real.cos_pos_of_mem_Ioo ⟨by linarith, by linarith⟩
    have : Real.cos (3 * Real.pi / 32) ^ 2 < 1 := by nlinarith
    exact ne_of_lt this

theorem quat2Dcm_one_c3 : (quat2Dcm (1 : Quaternion ℝ)).c3 = ⟨0, 0, 1⟩ := by
  unfold quat2Dcm
  simp only [Quaternion.one_re, Quaternion.one_imI, Quaternion.one_imJ,
    Quaternion.one_imK]
  refine Vec3.ext ?_ ?_ ?_ <;> norm_num

/-- Witness for the amended C1 theorem: the level scenario (identity
orientation, thrust straight up, zero commanded yaw) satisfies every
hypothesis, and the theorem yields the four unit norms there. -/
theorem attitude_stage_unit_norms_witness :
    Quaternion.normSq (1 : Quaternion ℝ) = 1 ∧
    witTta.1 ≠ Vec3.zero ∧
    Vec3.dot (quat2Dcm (1 : Quaternion ℝ)).c3 (ezdOf Orient.NED witTta.1) ≠ -1 ∧
    (quatMultiply (quatInverse witOut.qd_red) witTta.2).re ≠ 0 ∧
    (Quaternion.normSq witTta.2 = 1 ∧ Quaternion.normSq witOut.qd_red = 1 ∧
      Quaternion.normSq witOut.qd = 1 ∧ Quaternion.normSq witOut.qe = 1) := by
  have h1 : Quaternion.normSq (1 : Quaternion ℝ) = 1 := map_one Quaternion.normSq
  have hezdw : ezdOf Orient.NED witTta.1 = ⟨0, 0, 1⟩ := by
    rw [witTta_eq]; exact ezd_cexThrust
  have h2 : witTta.1 ≠ Vec3.zero := by
    rw [witTta_eq]
    intro h
    have hz := congrArg Vec3.z h
    norm_num [cexThrust, Vec3.zero] at hz
  have h3 : Vec3.dot (quat2Dcm (1 : Quaternion ℝ)).c3
      (ezdOf Orient.NED witTta.1) ≠ -1 := by
    rw [hezdw, quat2Dcm_one_c3]
    norm_num [Vec3.dot]
  have hcx : Vec3.cross ⟨-Real.sin 0, Real.cos 0, 0⟩
      (ezdOf Orient.NED witTta.1) ≠ Vec3.zero := by
    rw [hezdw, Real.sin_zero, Real.cos_zero]
    intro h
    have hx := congrArg Vec3.x h
    norm_num [Vec3.cross, Vec3.zero] at hx
  have hcr : Vec3.cross ⟨-Real.sin 0, Real.cos 0, 0⟩ (⟨0, 0, 1⟩ : Vec3) =
      ⟨1, 0, 0⟩ := by
    rw [Real.sin_zero, Real.cos_zero]
    refine Vec3.ext ?_ ?_ ?_ <;> norm_num [Vec3.cross]
  have hvn : vectNormalize (⟨1, 0, 0⟩ : Vec3) = ⟨1, 0, 0⟩ := by
    unfold vectNormalize Vec3.norm
    rw [show Vec3.dot ⟨1, 0, 0⟩ ⟨1, 0, 0⟩ = 1 by norm_num [Vec3.dot],
      Real.sqrt_one]
    refine Vec3.ext ?_ ?_ ?_ <;> norm_num [Vec3.smul]
  have hcr2 : Vec3.cross (⟨0, 0, 1⟩ : Vec3) ⟨1, 0, 0⟩ = ⟨0, 1, 0⟩ := by
    refine Vec3.ext ?_ ?_ ?_ <;> norm_num [Vec3.cross]
  have htr : 0 < 1 +
      ((vectNormalize (Vec3.cross ⟨-Real.sin 0, Real.cos 0, 0⟩
          (ezdOf Orient.NED witTta.1))).x +
        (Vec3.cross (ezdOf Orient.NED witTta.1) (vectNormalize
          (Vec3.cross ⟨-Real.sin 0, Real.cos 0, 0⟩
            (ezdOf Orient.NED witTta.1)))).y +
        (ezdOf Orient.NED witTta.1).z) := by
    rw [hezdw, hcr, hvn, hcr2]
    norm_num
  have hmix : (quatMultiply (quatInverse witOut.qd_red) witTta.2).re ≠ 0 := by
    rw [witOut_eq, witTta_eq]
    show (quatMultiply (quatInverse (1 : Quaternion ℝ)) 1).re ≠ 0
    rw [quatInverse_unit h1]
    simp only [quatMultiply]
    rw [star_one, one_mul, Quaternion.one_re]
    norm_num
  exact ⟨h1, h2, h3, hmix,
    attitude_stage_unit_norms Orient.NED cfgD pfZero 1 cexThrust 0 0
      witTta.1 witTta.2 witOut rfl rfl h1 h2 h3 hcx htr hmix⟩
